import Mathlib

/-!
Verification development for the BillBrain expense-tracking backend
(`backend/server.py`).  The definitions below are a shallow embedding of the
session-validation gate (`get_current_user`), the receipt listing
(`get_receipts`), the dashboard aggregation pipelines
(`get_dashboard_summary`), the tax report (`get_tax_summary`), the CSV export
(`export_csv`) and the settings endpoint (`update_settings`).

Modelling conventions:
* Mongo documents become Lean structures; a field that can hold JSON `null`
  (receipts' `section` and `category_id` can be set to `null` through
  `update_receipt`) is an `Option String`.
* Monetary amounts (Python floats) are modelled as exact rationals `ℚ`.
* Date strings are compared lexicographically by code point, as Mongo's
  `$gte`/`$lte` and Python's string comparison do; the comparison is
  implemented on the underlying character lists (`lexLe`).
* Python truthiness of an optional string parameter (`if param:`) is
  `optTruthy`: `None` and the empty string are falsy.
* A Mongo `$group` result has one row per distinct key, with sums taken over
  the documents carrying that key; group rows are then ordered by the
  pipeline's `$sort` (modelled with the stable `List.insertionSort`) and
  truncated by `$limit` / motor's `to_list(n)` bound (modelled with
  `List.take n`).
* The `$regex` merchant search is modelled by a small regex engine covering
  the fragment needed by the claims: literal characters, the `.` wildcard and
  the `*` repetition, matched case-insensitively (`$options: "i"`), searching
  at every position of the subject.  Patterns using other metacharacters are
  outside the embedded fragment (`parseRegex` returns `none` on them).
-/

namespace BillBrain

/-- Lexicographic (code-point) comparison of character lists: `lexLe a b`
holds iff string `a` is ≤ `b` in the order used by Mongo `$gte`/`$lte` on
strings. -/
def lexLe : List Char → List Char → Bool
  | [], _ => true
  | _ :: _, [] => false
  | a :: as, b :: bs => if a < b then true else if b < a then false else lexLe as bs

/-- String `a ≤ b`, lexicographically by code points (executable). -/
def strLe (a b : String) : Bool := lexLe a.data b.data

/-- Python truthiness of an `Optional[str]` request parameter: `None` and the
empty string are falsy (`if section:` etc.). -/
def optTruthy : Option String → Bool
  | none => false
  | some s => !(s == ("" : String))

/-- PCRE metacharacters.  The embedded regex engine interprets `.` and `*`;
patterns containing any of the remaining metacharacters are outside the
embedded fragment. -/
def isRegexMeta (c : Char) : Bool :=
  c = '.' || c = '^' || c = '$' || c = '*' || c = '+' || c = '?' ||
  c = '(' || c = ')' || c = '[' || c = ']' || c = '\x7b' || c = '\x7d' ||
  c = '|' || c = '\\'

/-- One token of the embedded regex fragment: a literal character, the `.`
wildcard, or a starred version of either. -/
inductive RTok where
  | lit (c : Char)
  | dot
  | starLit (c : Char)
  | starDot
deriving DecidableEq

/-- Parse a pattern string (as a character list) into the embedded regex
fragment; `none` when the pattern uses a metacharacter other than `.` or a
well-placed `*`. -/
def parseRegex : List Char → Option (List RTok)
  | [] => some []
  | [c] =>
    if c = '.' then some [RTok.dot]
    else if isRegexMeta c then none
    else some [RTok.lit c]
  | c :: d :: rest =>
    if c = '.' then
      if d = '*' then (parseRegex rest).map (fun ts => RTok.starDot :: ts)
      else (parseRegex (d :: rest)).map (fun ts => RTok.dot :: ts)
    else if isRegexMeta c then none
    else
      if d = '*' then (parseRegex rest).map (fun ts => RTok.starLit c :: ts)
      else (parseRegex (d :: rest)).map (fun ts => RTok.lit c :: ts)

/-- The subject suffixes reachable by consuming zero or more characters
case-insensitively equal to `c` (the `c*` token). -/
def starLitSuffixes (c : Char) : List Char → List (List Char)
  | [] => [[]]
  | x :: rest =>
    (x :: rest) :: (if c.toLower == x.toLower then starLitSuffixes c rest else [])

/-- All suffixes of the subject (the `.*` token consumes any characters). -/
def allSuffixes : List Char → List (List Char)
  | [] => [[]]
  | x :: rest => (x :: rest) :: allSuffixes rest

/-- The subject suffixes left after one token consumes from the front,
case-insensitively (the `i` regex option). -/
def tokMatches : RTok → List Char → List (List Char)
  | RTok.lit _, [] => []
  | RTok.lit c, x :: rest => if c.toLower == x.toLower then [rest] else []
  | RTok.dot, [] => []
  | RTok.dot, _ :: rest => [rest]
  | RTok.starLit c, xs => starLitSuffixes c xs
  | RTok.starDot, xs => allSuffixes xs

/-- Nondeterministic matching: thread the set of reachable suffixes through
the token list. -/
def reMatchAcc : List RTok → List (List Char) → List (List Char)
  | [], positions => positions
  | t :: ps, positions => reMatchAcc ps (positions.flatMap (tokMatches t))

/-- Anchored matching of a token list against a prefix of the subject,
case-insensitively: `reMatch ps xs` holds iff the tokens can consume some
prefix of `xs`. -/
def reMatch (ps : List RTok) (xs : List Char) : Bool :=
  !(reMatchAcc ps [xs]).isEmpty

/-- Unanchored regex search: try `reMatch` at every position of the subject,
as Mongo's `$regex` does. -/
def reSearch (ps : List RTok) : List Char → Bool
  | [] => reMatch ps []
  | x :: xs => reMatch ps (x :: xs) || reSearch ps xs

/-- The merchant-name `$regex ... $options: "i"` filter of `get_receipts`,
restricted to the embedded regex fragment. -/
def merchantRegexMatch (pattern text : String) : Bool :=
  match parseRegex pattern.data with
  | some ts => reSearch ts text.data
  | none => false

/-- Substring containment on character lists: some contiguous run of `text`
equals `pat`. -/
def containsSub (pat : List Char) : List Char → Bool
  | [] => pat.isEmpty
  | c :: t => pat.isPrefixOf (c :: t) || containsSub pat t

/-- The SPEC's reading of the merchant search (for the refinement comparison
of claim C2): case-insensitive literal substring containment. -/
def specSubstringCI (pattern text : String) : Bool :=
  containsSub (pattern.data.map Char.toLower) (text.data.map Char.toLower)

/-! ## Documents -/

/-- A receipt document.  `section` and `category_id` are `Option String`
because `update_receipt` can store JSON `null` in them; all other string
fields are always strings. -/
structure Receipt where
  receipt_id : String
  user_id : String
  merchant_name : String
  date : String
  total : ℚ
  tax : ℚ
  payment_method : String
  «section» : Option String
  category_id : Option String
  notes : String
  created_at : String
deriving DecidableEq

/-- A category document. -/
structure Category where
  category_id : String
  user_id : String
  name : String
  «section» : String
  is_default : Bool
  created_at : String
deriving DecidableEq

/-! ## Receipt listing (`get_receipts`) -/

/-- The optional filters of `GET /receipts` (the `user_id` comes from the
authorization gate). -/
structure ReceiptQuery where
  user_id : String
  «section» : Option String
  category_id : Option String
  search : Option String
  date_from : Option String
  date_to : Option String
  amount_min : Option ℚ
  amount_max : Option ℚ
deriving DecidableEq

/-- `if p: query[field] = p` — equality filter on an optional-string document
field, applied only when the parameter is truthy. -/
def eqOptFilter (p : Option String) (field : Option String) : Bool :=
  match p with
  | none => true
  | some s => if s == ("" : String) then true else field == some s

/-- `if p: query["date"]["$gte"] = p` — lower date bound, applied only when
the parameter is truthy. -/
def gteFilter (p : Option String) (v : String) : Bool :=
  match p with
  | none => true
  | some s => if s == ("" : String) then true else strLe s v

/-- `if p: query["date"]["$lte"] = p` — upper date bound, applied only when
the parameter is truthy. -/
def lteFilter (p : Option String) (v : String) : Bool :=
  match p with
  | none => true
  | some s => if s == ("" : String) then true else strLe v s

/-- `if search: query["merchant_name"] = {"$regex": search, "$options": "i"}`. -/
def searchFilter (p : Option String) (merchant : String) : Bool :=
  match p with
  | none => true
  | some s => if s == ("" : String) then true else merchantRegexMatch s merchant

/-- `if amount_min is not None: query["total"]["$gte"] = amount_min`. -/
def minFilter (p : Option ℚ) (v : ℚ) : Bool :=
  match p with
  | none => true
  | some m => decide (m ≤ v)

/-- `if amount_max is not None: query["total"]["$lte"] = amount_max`. -/
def maxFilter (p : Option ℚ) (v : ℚ) : Bool :=
  match p with
  | none => true
  | some m => decide (v ≤ m)

/-- The Mongo query document built by `get_receipts`, as a predicate on
receipts. -/
def matchesReceiptQuery (q : ReceiptQuery) (r : Receipt) : Bool :=
  (r.user_id == q.user_id) &&
  eqOptFilter q.«section» r.«section» &&
  eqOptFilter q.category_id r.category_id &&
  searchFilter q.search r.merchant_name &&
  gteFilter q.date_from r.date &&
  lteFilter q.date_to r.date &&
  minFilter q.amount_min r.total &&
  maxFilter q.amount_max r.total

/-- `.sort("date", -1)` — date descending: in the sorted list, each later
element's date is ≤ the earlier one's. -/
def dateDescRel (a b : Receipt) : Prop := strLe b.date a.date = true

instance : DecidableRel dateDescRel :=
  fun a b => instDecidableEqBool (strLe b.date a.date) true

/-- The response of `GET /receipts`: one page plus the unpaginated match
count (`count_documents` on the same query). -/
structure ReceiptPage where
  receipts : List Receipt
  total : ℕ
deriving DecidableEq

/-- `get_receipts`: filter, sort by date descending, skip/limit the page, and
count all matches regardless of pagination. -/
def getReceipts (db : List Receipt) (q : ReceiptQuery) (skip limit : ℕ) : ReceiptPage :=
  let matched := db.filter (matchesReceiptQuery q)
  ReceiptPage.mk (((matched.insertionSort dateDescRel).drop skip).take limit) matched.length

/-- The FastAPI defaults `skip: int = 0, limit: int = 50`. -/
def defaultLimit : ℕ := 50

/-- `get_receipts` with its default pagination. -/
def getReceiptsDefault (db : List Receipt) (q : ReceiptQuery) : ReceiptPage :=
  getReceipts db q 0 defaultLimit

/-! ## Session validation (`get_current_user`) -/

/-- The `expires_at` value of a session document: either timezone-aware
(already an absolute UTC instant) or naive (a clock reading stored without a
zone, possibly as an ISO string — `datetime.fromisoformat` preserves
naivety). Instants are integers (e.g. UTC seconds). -/
inductive StoredTime where
  | aware (t : ℤ)
  | naive (t : ℤ)
deriving DecidableEq

/-- `if expires_at.tzinfo is None: expires_at = expires_at.replace(tzinfo=utc)`:
a naive clock reading is interpreted as UTC, an aware one is already
absolute. -/
def normalizeToUTC : StoredTime → ℤ
  | StoredTime.aware t => t
  | StoredTime.naive t => t

/-- A session document in `db.user_sessions`. -/
structure Session where
  session_token : String
  user_id : String
  expires_at : StoredTime
  created_at : ℤ
deriving DecidableEq

/-- A user document is a loosely-typed record: a list of (field, value)
pairs, as the dict produced by Mongo (e.g. containing `user_id`, `email`,
`name`, `password_hash`, ...). -/
abbrev UserDoc : Type := List (String × String)

/-- `db.user_sessions.find_one({"session_token": token})`. -/
def findSession (sessions : List Session) (token : String) : Option Session :=
  sessions.find? (fun s => s.session_token == token)

/-- Field lookup in a user document. -/
def lookupField (u : UserDoc) (k : String) : Option String :=
  (u.find? (fun kv => kv.1 == k)).map (fun kv => kv.2)

/-- `db.users.find_one({"user_id": uid})`. -/
def findUser (users : List UserDoc) (uid : String) : Option UserDoc :=
  users.find? (fun u => lookupField u ("user_id") == some uid)

/-- `{k: v for k, v in user.items() if k != "password_hash"}`. -/
def stripPassword (u : UserDoc) : UserDoc :=
  u.filter (fun kv => !(kv.1 == ("password_hash" : String)))

/-- Result of the authorization gate: HTTP 401 with a detail message, or the
authenticated (credential-stripped) user record. -/
inductive AuthResult where
  | unauthorized (detail : String)
  | ok (user : UserDoc)

/-- Whether the gate rejected. -/
def AuthResult.isUnauthorized : AuthResult → Bool
  | AuthResult.unauthorized _ => true
  | AuthResult.ok _ => false

/-- The user record of an accepting result (empty record on rejection). -/
def AuthResult.okUser : AuthResult → UserDoc
  | AuthResult.unauthorized _ => []
  | AuthResult.ok u => u

/-- The last step of `get_current_user`: look up the user referenced by the
session, reject with 401 when it no longer exists, otherwise return the user
record with the password credential stripped. -/
def validUserLookup (users : List UserDoc) (uid : String)
    (sessions : List Session) : AuthResult × List Session :=
  match findUser users uid with
  | none => (AuthResult.unauthorized ("User not found"), sessions)
  | some u => (AuthResult.ok (stripPassword u), sessions)

/-- The expiry check of `get_current_user`: normalize the stored expiry to
UTC and reject with 401 when it is strictly before `now`
(`if expires_at < datetime.now(timezone.utc)`). -/
def validateSessionDoc (users : List UserDoc) (s : Session) (now : ℤ)
    (sessions : List Session) : AuthResult × List Session :=
  if normalizeToUTC s.expires_at < now then
    (AuthResult.unauthorized ("Session expired"), sessions)
  else
    validUserLookup users s.user_id sessions

/-- The session-validation core of `get_current_user`, after the bearer token
has been extracted from the header: look up the session, reject when absent;
then check the expiry and the referenced user.  The function performs no
writes, so the session store is returned unchanged alongside the result. -/
def validateToken (sessions : List Session) (users : List UserDoc)
    (token : String) (now : ℤ) : AuthResult × List Session :=
  match findSession sessions token with
  | none => (AuthResult.unauthorized ("Invalid session"), sessions)
  | some s => validateSessionDoc users s now sessions

/-- `auth_header.split("Bearer ")` (Python `str.split` on a non-empty
separator, all occurrences, separators consumed), with an explicit fuel equal
to the text length. -/
def splitOnAux (sep : List Char) : ℕ → List Char → List Char → List (List Char)
  | _, cur, [] => [cur.reverse]
  | 0, cur, rest => [cur.reverse ++ rest]
  | Nat.succ fuel, cur, c :: rest =>
    if sep.isPrefixOf (c :: rest) && !sep.isEmpty then
      cur.reverse :: splitOnAux sep fuel [] (List.drop sep.length (c :: rest))
    else
      splitOnAux sep fuel (c :: cur) rest

/-- Python `text.split(sep)` for a non-empty separator. -/
def pySplit (text sep : String) : List String :=
  (splitOnAux sep.data text.data.length [] text.data).map (fun cs => String.mk cs)

/-- `auth_header.split("Bearer ")[1]` (guarded by
`auth_header.startswith("Bearer ")`, so index 1 exists). -/
def extractToken (header : String) : String :=
  ((pySplit header ("Bearer ")).getD 1 (""))

/-- `get_current_user`: reject when the Authorization header is missing or
does not start with `Bearer `; otherwise extract the token and validate the
session. -/
def getCurrentUser (sessions : List Session) (users : List UserDoc)
    (authHeader : Option String) (now : ℤ) : AuthResult × List Session :=
  match authHeader with
  | none => (AuthResult.unauthorized ("Not authenticated"), sessions)
  | some h =>
    if h.startsWith ("Bearer ") then
      validateToken sessions users (extractToken h) now
    else
      (AuthResult.unauthorized ("Not authenticated"), sessions)

/-- `GET /auth/me` returns the gate's user record unchanged. -/
def getMe (sessions : List Session) (users : List UserDoc)
    (authHeader : Option String) (now : ℤ) : AuthResult × List Session :=
  getCurrentUser sessions users authHeader now

/-! ## Settings (`update_settings`) -/

/-- Mongo `$set` of a single field on a loosely-typed document: replace the
value if the field exists, else append it. -/
def setField (doc : UserDoc) (k v : String) : UserDoc :=
  if (doc.find? (fun kv => kv.1 == k)).isSome then
    doc.map (fun kv => if kv.1 == k then (kv.1, v) else kv)
  else
    doc ++ [(k, v)]

/-- Mongo `$set` of several fields. -/
def applySet (doc : UserDoc) (updates : List (String × String)) : UserDoc :=
  updates.foldl (fun d kv => setField d kv.1 kv.2) doc

/-- The update payload of `PUT /settings`: `{k: v for k, v in
data.dict(exclude_unset=True).items() if v is not None}`. -/
def settingsUpdates (currency theme : Option String) : List (String × String) :=
  (match currency with
   | some c => [(("currency" : String), c)]
   | none => []) ++
  (match theme with
   | some t => [(("theme" : String), t)]
   | none => [])

/-- `update_settings`: apply the non-`None` updates to the caller's user
document, then re-fetch it with the projection `{"password_hash": 0}` (the
credential field is excluded from the returned record). -/
def updateSettings (users : List UserDoc) (uid : String)
    (currency theme : Option String) : Option UserDoc :=
  let users2 := users.map (fun u =>
    if lookupField u ("user_id") == some uid then
      applySet u (settingsUpdates currency theme)
    else u)
  (findUser users2 uid).map (fun u =>
    u.filter (fun kv => !(kv.1 == ("password_hash" : String))))

/-! ## Dashboard aggregation (`get_dashboard_summary`) -/

/-- A window aggregate `{total, tax, count}`. -/
structure Totals3 where
  total : ℚ
  tax : ℚ
  count : ℕ
deriving DecidableEq

/-- The `$match` stage of the monthly/yearly pipelines: the caller's receipts
with `fromD <= date <= toD` (inclusive, lexicographic). -/
def windowMatch (uid fromD toD : String) (r : Receipt) : Bool :=
  (r.user_id == uid) && strLe fromD r.date && strLe r.date toD

/-- A window total: `$group {_id: None, total: $sum, tax: $sum, count: $sum 1}`
followed by `monthly[0] if monthly else {"total": 0, "tax": 0, "count": 0}` —
an empty match yields the zero aggregate, never an error. -/
def windowTotal (db : List Receipt) (uid fromD toD : String) : Totals3 :=
  let ms := db.filter (windowMatch uid fromD toD)
  if ms.isEmpty then Totals3.mk 0 0 0
  else Totals3.mk ((ms.map Receipt.total).sum) ((ms.map Receipt.tax).sum) ms.length

/-- The dashboard's monthly figure (window = first of current month .. today). -/
def dashboardMonthly (db : List Receipt) (uid monthStart today : String) : Totals3 :=
  windowTotal db uid monthStart today

/-- The dashboard's yearly figure (window = Jan 1 .. today). -/
def dashboardYearly (db : List Receipt) (uid yearStart today : String) : Totals3 :=
  windowTotal db uid yearStart today

/-- One row of the category `$group`: the `category_id` key (possibly null),
with summed total and count. -/
structure CatGroup where
  key : Option String
  total : ℚ
  count : ℕ
deriving DecidableEq

/-- The distinct `category_id` values of a receipt set (`$group` has one row
per distinct key). -/
def catKeys (rs : List Receipt) : List (Option String) :=
  (rs.map Receipt.category_id).dedup

/-- The group row for one `category_id` key. -/
def catGroupOf (rs : List Receipt) (k : Option String) : CatGroup :=
  let g := rs.filter (fun r => r.category_id == k)
  CatGroup.mk k ((g.map Receipt.total).sum) g.length

/-- `$group {_id: "$category_id", total: $sum, count: $sum 1}`. -/
def groupByCategory (rs : List Receipt) : List CatGroup :=
  (catKeys rs).map (catGroupOf rs)

/-- `$sort: {"total": -1}` — descending by total. -/
def catTotalDescRel (a b : CatGroup) : Prop := b.total ≤ a.total

instance : DecidableRel catTotalDescRel :=
  fun a b => inferInstanceAs (Decidable (b.total ≤ a.total))

/-- The dashboard's category pipeline up to the Python list comprehension:
year-to-date `$match`, `$group` by `category_id`, `$sort` by total
descending, `$limit: 10`. -/
def dashboardCategoryGroups (db : List Receipt) (uid yearStart today : String) :
    List CatGroup :=
  ((groupByCategory (db.filter (windowMatch uid yearStart today))).insertionSort
    catTotalDescRel).take 10

/-- `cat_map.get(cid, dflt)` where `cat_map = {c["category_id"]: c["name"]
for c in cat_docs}` — a dict comprehension keeps the last binding of a
duplicated key. -/
def catMapGet (docs : List Category) (cid dflt : String) : String :=
  (((docs.filter (fun c => c.category_id == cid)).map Category.name).getLast?).getD dflt

/-- One row of the dashboard's `category_data` response. -/
structure CatRow where
  category_id : Option String
  name : String
  total : ℚ
  count : ℕ
deriving DecidableEq

/-- `$sort: {"total": -1}` on response rows (for stating order properties). -/
def catRowTotalDescRel (a b : CatRow) : Prop := b.total ≤ a.total

instance : DecidableRel catRowTotalDescRel :=
  fun a b => inferInstanceAs (Decidable (b.total ≤ a.total))

/-- The category documents fetched by the dashboard (`$in` on the truthy
group keys, `to_list(100)`). -/
def dashboardCatDocs (db : List Receipt) (cats : List Category)
    (uid yearStart today : String) : List Category :=
  let cat_ids : List String := (dashboardCategoryGroups db uid yearStart
    today).filterMap (fun c =>
      match c.key with
      | some cid => if cid == ("" : String) then none else some cid
      | none => none)
  (cats.filter (fun c => cat_ids.contains c.category_id)).take 100

/-- One `category_data` response row for a group: name resolved through
`cat_map` with default "Unknown". -/
def dashboardRowOf (cat_docs : List Category) (c : CatGroup) : CatRow :=
  CatRow.mk c.key
    (match c.key with
     | some cid => catMapGet cat_docs cid ("Unknown")
     | none => ("Unknown" : String))
    c.total c.count

/-- The dashboard's `category_data`: the pipeline's top-10 groups, restricted
by the comprehension `for c in categories if c["_id"]` to the groups with a
truthy key, with names resolved.  The top-10 cap has already been applied by
the pipeline, BEFORE this null-key filtering. -/
def dashboardCategoryData (db : List Receipt) (cats : List Category)
    (uid yearStart today : String) : List CatRow :=
  (dashboardCategoryGroups db uid yearStart today).filterMap (fun c =>
    if optTruthy c.key then
      some (dashboardRowOf (dashboardCatDocs db cats uid yearStart today) c)
    else none)

/-! ## Report query (`get_tax_summary`, `export_csv`) -/

/-- The query built by both report endpoints: caller's receipts, optional
inclusive date range and section equality, each applied only when truthy. -/
def reportQueryPred (uid : String) (date_from date_to sectionQ : Option String)
    (r : Receipt) : Bool :=
  (r.user_id == uid) &&
  gteFilter date_from r.date &&
  lteFilter date_to r.date &&
  eqOptFilter sectionQ r.«section»

/-! ## Tax summary (`get_tax_summary`) -/

/-- The compound `$group` key `{"section": "$section", "category_id":
"$category_id"}`. -/
structure TaxKey where
  «section» : Option String
  category_id : Option String
deriving DecidableEq

/-- One row of the tax `$group`. -/
structure TaxGroup where
  key : TaxKey
  total : ℚ
  tax : ℚ
  count : ℕ
deriving DecidableEq

/-- The distinct (section, category_id) keys of a receipt set. -/
def taxKeys (rs : List Receipt) : List TaxKey :=
  (rs.map (fun r => TaxKey.mk r.«section» r.category_id)).dedup

/-- The group row for one (section, category_id) key. -/
def taxGroupOf (rs : List Receipt) (k : TaxKey) : TaxGroup :=
  let g := rs.filter (fun r => TaxKey.mk r.«section» r.category_id == k)
  TaxGroup.mk k ((g.map Receipt.total).sum) ((g.map Receipt.tax).sum) g.length

/-- `$group` by (section, category_id) with summed total, tax and count. -/
def groupTax (rs : List Receipt) : List TaxGroup :=
  (taxKeys rs).map (taxGroupOf rs)

/-- Strict Mongo order on the `section` component of the group key: BSON
`null` sorts before every string, strings sort lexicographically. -/
def sectionLt : Option String → Option String → Bool
  | none, none => false
  | none, some _ => true
  | some _, none => false
  | some a, some b => !(strLe b a)

/-- `$sort: {"_id.section": 1, "total": -1}` — section ascending (null
first), then total descending. -/
def taxGroupLe (a b : TaxGroup) : Prop :=
  sectionLt a.key.«section» b.key.«section» = true ∨
    (a.key.«section» = b.key.«section» ∧ b.total ≤ a.total)

instance : DecidableRel taxGroupLe :=
  fun a b => by unfold taxGroupLe; infer_instance

/-- The tax pipeline: `$match`, `$group` by (section, category_id), `$sort`,
and motor's `to_list(200)` bound. -/
def taxResults (db : List Receipt) (uid : String) (df dt sq : Option String) :
    List TaxGroup :=
  ((groupTax (db.filter (reportQueryPred uid df dt sq))).insertionSort taxGroupLe).take 200

/-- One row of the tax summary response. -/
structure TaxRow where
  category_id : Option String
  category_name : String
  total : ℚ
  tax : ℚ
  count : ℕ
deriving DecidableEq

/-- The tax summary response: the two fixed section lists and their running
totals. -/
structure TaxSummary where
  personal : List TaxRow
  business : List TaxRow
  totalsPersonal : Totals3
  totalsBusiness : Totals3
deriving DecidableEq

/-- A resolved response row: category name from `cat_map` with default
"Unknown" (both for an unknown id and for a null key). -/
def taxRowOf (cat_docs : List Category) (g : TaxGroup) : TaxRow :=
  TaxRow.mk g.key.category_id
    (match g.key.category_id with
     | some cid => catMapGet cat_docs cid ("Unknown")
     | none => ("Unknown" : String))
    g.total g.tax g.count

/-- `totals[sec]["total"] += r["total"]` etc. -/
def addTotals (t : Totals3) (g : TaxGroup) : Totals3 :=
  Totals3.mk (t.total + g.total) (t.tax + g.tax) (t.count + g.count)

/-- The body of `for r in results: if sec in summary: ...` — a group whose
section is exactly "personal" or "business" is appended to that section's
list and added to its running totals; every other group is skipped. -/
def taxStep (cat_docs : List Category) (acc : TaxSummary) (g : TaxGroup) : TaxSummary :=
  match g.key.«section» with
  | some s =>
    if s == ("personal" : String) then
      TaxSummary.mk (acc.personal ++ [taxRowOf cat_docs g]) acc.business
        (addTotals acc.totalsPersonal g) acc.totalsBusiness
    else if s == ("business" : String) then
      TaxSummary.mk acc.personal (acc.business ++ [taxRowOf cat_docs g])
        acc.totalsPersonal (addTotals acc.totalsBusiness g)
    else acc
  | none => acc

/-- The initial `summary = {"personal": [], "business": []}` and zero totals. -/
def emptyTaxSummary : TaxSummary :=
  TaxSummary.mk [] [] (Totals3.mk 0 0 0) (Totals3.mk 0 0 0)

/-- The category documents fetched for the tax summary (`$in` on the truthy
category ids of the result rows, `to_list(200)`). -/
def taxCatDocs (cats : List Category) (results : List TaxGroup) : List Category :=
  let cat_ids : List String := results.filterMap (fun g =>
    match g.key.category_id with
    | some cid => if cid == ("" : String) then none else some cid
    | none => none)
  (cats.filter (fun c => cat_ids.contains c.category_id)).take 200

/-- `get_tax_summary`: run the pipeline and fold its rows into the two
section lists and running totals. -/
def getTaxSummary (db : List Receipt) (cats : List Category) (uid : String)
    (df dt sq : Option String) : TaxSummary :=
  let results := taxResults db uid df dt sq
  results.foldl (taxStep (taxCatDocs cats results)) emptyTaxSummary

/-- The name-free data of a response row (category id and the three summed
statistics; the resolved display name is excluded). -/
def taxRowData (row : TaxRow) : Option String × ℚ × ℚ × ℕ :=
  (row.category_id, row.total, row.tax, row.count)

/-- Receipts whose section is exactly "personal" or "business". -/
def pbSectionR (r : Receipt) : Bool :=
  r.«section» == some ("personal") || r.«section» == some ("business")

/-- Group keys whose section is exactly "personal" or "business". -/
def pbSectionK (k : TaxKey) : Bool :=
  k.«section» == some ("personal") || k.«section» == some ("business")

/-- Result groups whose section is exactly the string `s`. -/
def secIs (s : String) (g : TaxGroup) : Bool :=
  g.key.«section» == some s

/-! ## CSV export (`export_csv`) -/

/-- Python `str.title()` (ASCII model): an alphabetic character is uppercased
when it follows a non-alphabetic character (or the start) and lowercased
otherwise. -/
def titleCaseAux : Bool → List Char → List Char
  | _, [] => []
  | prevAlpha, c :: cs =>
    (if c.isAlpha then (if prevAlpha then c.toLower else c.toUpper) else c) ::
      titleCaseAux c.isAlpha cs

/-- Python `str.title()`. -/
def titleCase (s : String) : String := String.mk (titleCaseAux false s.data)

/-- Python `f"{q:.2f}"` on the exact rational value: the amount rounded to
cents and printed with a two-digit fractional part. -/
def format2 (q : ℚ) : String :=
  let n : ℤ := round (q * 100)
  let m : ℕ := n.natAbs
  (if n < 0 then ("-" : String) else ("" : String)) ++
    (Nat.repr (m / 100)) ++ ("." : String) ++
    (if m % 100 < 10 then ("0" : String) ++ Nat.repr (m % 100) else Nat.repr (m % 100))

/-- The fixed CSV header row. -/
def csvHeader : List String :=
  [("Date"), ("Merchant"), ("Section"), ("Category"), ("Total (CAD)"),
   ("Tax (CAD)"), ("Payment Method"), ("Notes")]

/-- One CSV data row: date, merchant, title-cased section, resolved category
name (default empty), two-decimal total and tax, payment method, notes.  The
section value is `r.get("section", "")`, only safe when the stored value is
not null (the caller guards this). -/
def csvRow (cat_docs : List Category) (r : Receipt) : List String :=
  [r.date, r.merchant_name, titleCase (r.«section».getD ("")),
   (match r.category_id with
    | some cid => catMapGet cat_docs cid ("")
    | none => ("" : String)),
   format2 r.total, format2 r.tax, r.payment_method, r.notes]

/-- The receipts serialized by `export_csv`: the report query, sorted by date
descending, capped by `to_list(10000)`. -/
def exportReceipts (db : List Receipt) (uid : String) (df dt sq : Option String) :
    List Receipt :=
  ((db.filter (reportQueryPred uid df dt sq)).insertionSort dateDescRel).take 10000

/-- The category documents fetched by `export_csv` (`$in` on the truthy
category ids of the matched receipts, `to_list(500)`). -/
def exportCatDocs (db : List Receipt) (cats : List Category) (uid : String)
    (df dt sq : Option String) : List Category :=
  let cat_ids : List String := (exportReceipts db uid df dt sq).filterMap (fun r =>
    match r.category_id with
    | some cid => if cid == ("" : String) then none else some cid
    | none => none)
  (cats.filter (fun c => cat_ids.contains c.category_id)).take 500

/-- `export_csv` as the emitted rows: header first, then one row per matched
receipt.  A matched receipt whose stored section is JSON null makes
`r.get("section", "").title()` raise (`None.title()`), so no rows are emitted
at all: that case is `none`. -/
def exportCsv (db : List Receipt) (cats : List Category) (uid : String)
    (df dt sq : Option String) : Option (List (List String)) :=
  let receipts := exportReceipts db uid df dt sq
  if receipts.all (fun r => r.«section».isSome) then
    some (csvHeader :: receipts.map (csvRow (exportCatDocs db cats uid df dt sq)))
  else none

/-! ## Concrete example data (used by witnesses and counterexamples) -/

/-- A "personal" receipt with its own category (a distinct id per index). -/
def seqReceipt (i : ℕ) : Receipt :=
  Receipt.mk ("") ("u") ("") ("") 0 0
    ("") (some ("personal")) (some (String.mk (List.replicate i ('x')))) ("") ("")

/-- 201 receipts in 201 distinct (personal, category) groups — one more than
the tax pipeline's `to_list(200)` bound. -/
def bigDb5 : List Receipt := (List.range 201).map seqReceipt

/-- A receipt whose section was set to JSON null, in its own group, with the
largest total. -/
def nullSecReceipt : Receipt :=
  Receipt.mk ("rn") ("u") ("M") ("2025-06-15") 1000 0 ("") none (some ("cx")) ("") ("")

/-- A null-section receipt plus 200 personal single-receipt groups: 201
groups, of which the null one sorts first. -/
def bigDb9 : List Receipt := nullSecReceipt :: (List.range 200).map seqReceipt

/-- A "personal" receipt with its own category and total `12 - i`. -/
def seqReceipt4 (i : ℕ) : Receipt :=
  Receipt.mk (("s") ++ Nat.repr i) ("u") ("M") ("2025-06-15") ((12 : ℚ) - (i : ℚ)) 0
    ("") (some ("personal")) (some (("c") ++ Nat.repr i)) ("") ("")

/-- A receipt with a null `category_id` and the largest total of its window. -/
def nullCatReceipt : Receipt :=
  Receipt.mk ("rn4") ("u") ("M") ("2025-06-15") 100 0 ("") (some ("personal")) none ("") ("")

/-- One null-category group (largest total) plus 11 distinct non-null
category groups. -/
def db4 : List Receipt := nullCatReceipt :: (List.range 11).map seqReceipt4

/-- Two receipts in distinct non-null categories. -/
def db4w : List Receipt := [seqReceipt4 0, seqReceipt4 1]

/-- One personal and one business receipt (distinct categories). -/
def pRec : Receipt :=
  Receipt.mk ("rp") ("u") ("M") ("2025-03-01") 10 1 ("") (some ("personal")) (some ("c1")) ("") ("")

def bRec : Receipt :=
  Receipt.mk ("rb") ("u") ("M") ("2025-03-02") 20 2 ("") (some ("business")) (some ("c2")) ("") ("")

def smallDb5 : List Receipt := [pRec, bRec]

/-- A receipt whose section is a string other than personal/business. -/
def otherSecReceipt : Receipt :=
  Receipt.mk ("ro") ("u") ("M") ("2025-03-03") 30 3 ("") (some ("other")) (some ("c3")) ("") ("")

def db9w : List Receipt := [pRec, otherSecReceipt]

/-- A receipt with merchant name "a" (for the regex counterexample). -/
def recA : Receipt :=
  Receipt.mk ("ra") ("u") ("a") ("2025-06-15") 5 0 ("") (some ("personal")) (some ("c1")) ("") ("")

/-- The listing query searching for the regex metacharacter ".". -/
def queryDot : ReceiptQuery :=
  ReceiptQuery.mk ("u") none none (some (".")) none none none none

/-- The listing query filtering section "personal". -/
def queryPersonal : ReceiptQuery :=
  ReceiptQuery.mk ("u") (some ("personal")) none none none none none none

def db3w : List Receipt := [pRec, bRec, recA]

/-- A receipt for the CSV formatting example: total 99.99, tax 12.99. -/
def rec7 : Receipt :=
  Receipt.mk ("r7") ("u") ("Shop") ("2025-06-15") (99.99 : ℚ) (12.99 : ℚ) ("Visa")
    (some ("personal")) (some ("c1")) ("") ("")

def db7w : List Receipt := [rec7]

/-- A receipt in a non-personal/non-business section whose category id
collides with the junk category documents below. -/
def otherCxReceipt : Receipt :=
  Receipt.mk ("rx") ("u") ("M") ("2025-03-04") 30 3 ("") (some ("other")) (some ("cx")) ("") ("")

/-- Two receipts: one personal (category c1) and one in section "other"
(category cx). -/
def db9c : List Receipt := [pRec, otherCxReceipt]

/-- A junk category document with id "cx". -/
def junkCat (i : ℕ) : Category :=
  Category.mk ("cx") ("u") (("Junk") ++ Nat.repr i) ("personal") false ("")

/-- The category document naming c1. -/
def foodCat : Category := Category.mk ("c1") ("u") ("Food") ("personal") true ("")

/-- 200 junk "cx" documents followed by the "c1" document: exactly enough to
make the tax summary's `to_list(200)` category fetch drop the "c1" name when
"cx" is also requested. -/
def cats9 : List Category := ((List.range 200).map junkCat) ++ [foodCat]

/-- A session expiring exactly at instant 100, and its user store. -/
def demoSession : Session := Session.mk ("t") ("u1") (StoredTime.aware 100) 0

def demoSessions : List Session := [demoSession]

def demoUsers : List UserDoc :=
  [[(("user_id"), ("u1")), (("name"), ("A")), (("password_hash"), ("h"))]]

/-! ## Order lemmas for the lexicographic comparison -/

theorem lexLe_total : ∀ (a b : List Char), lexLe a b = true ∨ lexLe b a = true
  | [], _ => Or.inl rfl
  | _ :: _, [] => Or.inr rfl
  | x :: as, y :: bs => by
    by_cases h1 : x < y
    · left; simp [lexLe, h1]
    · by_cases h2 : y < x
      · right; simp [lexLe, h2]
      · cases lexLe_total as bs with
        | inl h => left; simp [lexLe, h1, h2, h]
        | inr h => right; simp [lexLe, h1, h2, h]

theorem lexLe_trans : ∀ {a b c : List Char},
    lexLe a b = true → lexLe b c = true → lexLe a c = true
  | [], _, _, _, _ => rfl
  | x :: as, [], c, h1, _ => by simp [lexLe] at h1
  | x :: as, y :: bs, [], _, h2 => by simp [lexLe] at h2
  | x :: as, y :: bs, z :: cs, h1, h2 => by
    rcases lt_trichotomy x y with hxy | hxy | hxy
    · rcases lt_trichotomy y z with hyz | hyz | hyz
      · simp [lexLe, lt_trans hxy hyz]
      · subst hyz; simp [lexLe, hxy]
      · simp [lexLe, hyz, asymm hyz] at h2
    · subst hxy
      rcases lt_trichotomy x z with hyz | hyz | hyz
      · simp [lexLe, hyz]
      · subst hyz
        simp only [lexLe, lt_irrefl, if_false] at h1 h2 ⊢
        exact lexLe_trans h1 h2
      · simp [lexLe, hyz, asymm hyz] at h2
    · simp [lexLe, hxy, asymm hxy] at h1

theorem lexLe_antisymm : ∀ {a b : List Char},
    lexLe a b = true → lexLe b a = true → a = b
  | [], [], _, _ => rfl
  | [], _ :: _, _, h2 => by simp [lexLe] at h2
  | _ :: _, [], h1, _ => by simp [lexLe] at h1
  | x :: as, y :: bs, h1, h2 => by
    rcases lt_trichotomy x y with hxy | hxy | hxy
    · simp [lexLe, hxy, asymm hxy] at h2
    · subst hxy
      simp only [lexLe, lt_irrefl, if_false] at h1 h2
      rw [lexLe_antisymm h1 h2]
    · simp [lexLe, hxy, asymm hxy] at h1

theorem strLe_total (a b : String) : strLe a b = true ∨ strLe b a = true :=
  lexLe_total a.data b.data

theorem strLe_trans {a b c : String} (h1 : strLe a b = true) (h2 : strLe b c = true) :
    strLe a c = true :=
  lexLe_trans h1 h2

theorem strLe_antisymm : ∀ {a b : String},
    strLe a b = true → strLe b a = true → a = b
  | String.mk _, String.mk _, h1, h2 => congrArg String.mk (lexLe_antisymm h1 h2)

instance : IsTotal Receipt dateDescRel :=
  ⟨fun a b => (strLe_total b.date a.date).imp id id⟩

instance : IsTrans Receipt dateDescRel :=
  ⟨fun _ _ _ h1 h2 => strLe_trans h2 h1⟩

instance : IsTotal CatGroup catTotalDescRel :=
  ⟨fun a b => (le_total b.total a.total).imp id id⟩

instance : IsTrans CatGroup catTotalDescRel :=
  ⟨fun _ _ _ h1 h2 => le_trans h2 h1⟩

theorem sectionLt_trans : ∀ {a b c : Option String},
    sectionLt a b = true → sectionLt b c = true → sectionLt a c = true
  | none, none, _, h1, _ => by simp [sectionLt] at h1
  | none, some _, none, _, h2 => by simp [sectionLt] at h2
  | none, some _, some _, _, _ => rfl
  | some _, none, _, h1, _ => by simp [sectionLt] at h1
  | some _, some _, none, _, h2 => by simp [sectionLt] at h2
  | some a, some b, some c, h1, h2 => by
    simp only [sectionLt, Bool.not_eq_true'] at h1 h2 ⊢
    by_contra hca
    rw [Bool.not_eq_false] at hca
    rcases strLe_total a b with hab | hba
    · exact absurd (strLe_trans hca hab) (by simp [h2])
    · exact absurd hba (by simp [h1])

theorem sectionLt_conn : ∀ {a b : Option String},
    sectionLt a b = false → sectionLt b a = false → a = b
  | none, none, _, _ => rfl
  | none, some _, h1, _ => by simp [sectionLt] at h1
  | some _, none, _, h2 => by simp [sectionLt] at h2
  | some a, some b, h1, h2 => by
    simp only [sectionLt, Bool.not_eq_false', Bool.not_eq_false] at h1 h2
    have hab : strLe a b = true := by
      rcases h : strLe a b with _ | _
      · rw [h] at h2; simp at h2
      · rfl
    have hba : strLe b a = true := by
      rcases h : strLe b a with _ | _
      · rw [h] at h1; simp at h1
      · rfl
    rw [strLe_antisymm hab hba]

instance : IsTrans TaxGroup taxGroupLe :=
  ⟨by
    intro a b c h1 h2
    rcases h1 with h1 | ⟨h1e, h1t⟩
    · rcases h2 with h2 | ⟨h2e, h2t⟩
      · exact Or.inl (sectionLt_trans h1 h2)
      · exact Or.inl (h2e ▸ h1)
    · rcases h2 with h2 | ⟨h2e, h2t⟩
      · exact Or.inl (h1e ▸ h2)
      · exact Or.inr ⟨h1e.trans h2e, le_trans h2t h1t⟩⟩

instance : IsTotal TaxGroup taxGroupLe :=
  ⟨by
    intro a b
    rcases hab : sectionLt a.key.«section» b.key.«section» with _ | _
    · rcases hba : sectionLt b.key.«section» a.key.«section» with _ | _
      · have he := sectionLt_conn hab hba
        rcases le_total b.total a.total with ht | ht
        · exact Or.inl (Or.inr ⟨he, ht⟩)
        · exact Or.inr (Or.inr ⟨he.symm, ht⟩)
      · exact Or.inr (Or.inl hba)
    · exact Or.inl (Or.inl hab)⟩

/-! ## Generic list lemmas: stable sorting commutes with filtering, and
`$group` row statistics. -/

theorem orderedInsert_of_forall_rel {α : Type} {r : α → α → Prop} [DecidableRel r]
    (x : α) (l : List α) (h : ∀ c ∈ l, r x c) : l.orderedInsert r x = x :: l := by
  cases l with
  | nil => rfl
  | cons b t => simp [List.orderedInsert, h b (List.mem_cons_self b t)]

theorem filter_orderedInsert_pos {α : Type} {r : α → α → Prop} [DecidableRel r]
    [IsTrans α r] (P : α → Bool) (x : α) :
    ∀ l : List α, l.Sorted r → P x = true →
      (l.orderedInsert r x).filter P = (l.filter P).orderedInsert r x
  | [], _, hx => by simp [List.orderedInsert, hx]
  | b :: t, hs, hx => by
    have hs' : t.Sorted r := hs.of_cons
    have hb : ∀ c ∈ t, r b c := List.rel_of_sorted_cons hs
    by_cases hrb : r x b
    · rw [List.orderedInsert, if_pos hrb, List.filter_cons_of_pos hx,
        orderedInsert_of_forall_rel x ((b :: t).filter P)]
      intro c hc
      rcases List.mem_cons.mp (List.mem_of_mem_filter hc) with hcb | hct
      · exact hcb ▸ hrb
      · exact Trans.trans hrb (hb c hct)
    · rw [List.orderedInsert, if_neg hrb]
      by_cases hPb : P b
      · rw [List.filter_cons_of_pos hPb, List.filter_cons_of_pos hPb,
          filter_orderedInsert_pos P x t hs' hx, List.orderedInsert, if_neg hrb]
      · rw [List.filter_cons_of_neg (by simpa using hPb),
          List.filter_cons_of_neg (by simpa using hPb),
          filter_orderedInsert_pos P x t hs' hx]

theorem filter_orderedInsert_neg {α : Type} {r : α → α → Prop} [DecidableRel r]
    (P : α → Bool) (x : α) :
    ∀ l : List α, P x = false →
      (l.orderedInsert r x).filter P = l.filter P
  | [], hx => by simp [List.orderedInsert, hx]
  | b :: t, hx => by
    by_cases hrb : r x b
    · rw [List.orderedInsert, if_pos hrb, List.filter_cons_of_neg (by simp [hx])]
    · rw [List.orderedInsert, if_neg hrb]
      by_cases hPb : P b
      · rw [List.filter_cons_of_pos hPb, List.filter_cons_of_pos hPb,
          filter_orderedInsert_neg P x t hx]
      · rw [List.filter_cons_of_neg (by simpa using hPb),
          List.filter_cons_of_neg (by simpa using hPb),
          filter_orderedInsert_neg P x t hx]

theorem filter_insertionSort {α : Type} {r : α → α → Prop} [DecidableRel r]
    [IsTrans α r] [IsTotal α r] (P : α → Bool) :
    ∀ l : List α, (l.insertionSort r).filter P = (l.filter P).insertionSort r
  | [] => rfl
  | x :: t => by
    rw [List.insertionSort]
    by_cases hx : P x
    · rw [filter_orderedInsert_pos P x _ (List.sorted_insertionSort r t) hx,
        filter_insertionSort P t, List.filter_cons_of_pos hx, List.insertionSort]
    · rw [filter_orderedInsert_neg P x _ (by simpa using hx),
        filter_insertionSort P t, List.filter_cons_of_neg (by simpa using hx)]

theorem filterMap_ite_eq_filter_map {α β : Type} (p : α → Bool) (f : α → β) :
    ∀ l : List α,
      l.filterMap (fun a => if p a then some (f a) else none) = (l.filter p).map f
  | [] => rfl
  | a :: t => by
    by_cases hpa : p a
    · rw [List.filterMap_cons, List.filter_cons_of_pos hpa]
      simp only [hpa, if_pos]
      rw [filterMap_ite_eq_filter_map p f t, List.map_cons]
    · rw [List.filterMap_cons, List.filter_cons_of_neg (by simpa using hpa)]
      simp only [hpa, if_neg, Bool.false_eq_true, not_false_iff]
      rw [filterMap_ite_eq_filter_map p f t]

theorem dedup_filter {α : Type} [DecidableEq α] (p : α → Bool) :
    ∀ l : List α, (l.filter p).dedup = l.dedup.filter p
  | [] => rfl
  | a :: t => by
    by_cases ha : a ∈ t
    · rw [List.dedup_cons_of_mem ha]
      by_cases hpa : p a
      · rw [List.filter_cons_of_pos hpa,
          List.dedup_cons_of_mem (List.mem_filter.mpr ⟨ha, hpa⟩), dedup_filter p t]
      · rw [List.filter_cons_of_neg (by simpa using hpa), dedup_filter p t]
    · rw [List.dedup_cons_of_not_mem ha]
      by_cases hpa : p a
      · rw [List.filter_cons_of_pos hpa,
          List.dedup_cons_of_not_mem (fun h => ha (List.mem_of_mem_filter h)),
          dedup_filter p t, List.filter_cons_of_pos hpa]
      · rw [List.filter_cons_of_neg (by simpa using hpa), dedup_filter p t,
          List.filter_cons_of_neg (by simpa using hpa)]

theorem filter_beq_nil {α : Type} [DecidableEq α] {a : α} {m : List α} (ha : a ∉ m) :
    m.filter (fun x => x == a) = [] := by
  induction m with
  | nil => rfl
  | cons b t ih =>
    have hba : ¬((b == a) = true) := by
      simp only [beq_iff_eq]
      rintro rfl
      exact ha (List.mem_cons_self b t)
    rw [List.filter_cons, if_neg hba, ih (fun h => ha (List.mem_cons_of_mem b h))]

theorem length_filter_beq_of_nodup {α : Type} [DecidableEq α] {a : α} :
    ∀ {l : List α}, l.Nodup → a ∈ l → (l.filter (fun x => x == a)).length = 1
  | [], _, ha => by cases ha
  | b :: t, hn, ha => by
    rw [List.filter_cons]
    rcases List.mem_cons.mp ha with rfl | hat
    · rw [if_pos (by simp), filter_beq_nil (List.nodup_cons.mp hn).1]
      rfl
    · have hba : ¬((b == a) = true) := by
        intro h
        exact (List.nodup_cons.mp hn).1 (by rw [beq_iff_eq.mp h]; exact hat)
      rw [if_neg hba]
      exact length_filter_beq_of_nodup (List.nodup_cons.mp hn).2 hat

theorem sum_map_eq_length_of_one {α : Type} (f : α → ℕ) :
    ∀ l : List α, (∀ x ∈ l, f x = 1) → (l.map f).sum = l.length
  | [], _ => rfl
  | a :: t, h => by
    rw [List.map_cons, List.sum_cons, h a (List.mem_cons_self a t),
      sum_map_eq_length_of_one f t (fun x hx => h x (List.mem_cons_of_mem a hx)),
      List.length_cons]
    omega

theorem sum_len_filter_cons {α : Type} [DecidableEq α] (a : α) (m : List α) :
    ∀ ks : List α, ks.Nodup →
      (ks.map (fun k => ((a :: m).filter (fun x => x == k)).length)).sum
        = (ks.map (fun k => (m.filter (fun x => x == k)).length)).sum
          + (if a ∈ ks then 1 else 0)
  | [], _ => by simp
  | k :: t, hnd => by
    have hnd' : t.Nodup := (List.nodup_cons.mp hnd).2
    have hkt : k ∉ t := (List.nodup_cons.mp hnd).1
    have ih := sum_len_filter_cons a m t hnd'
    rw [List.map_cons, List.sum_cons, List.map_cons, List.sum_cons, ih]
    have hhead : ((a :: m).filter (fun x => x == k)).length
        = (m.filter (fun x => x == k)).length + (if a = k then 1 else 0) := by
      rw [List.filter_cons]
      by_cases hak : a = k
      · simp [hak]
      · simp [hak]
    rw [hhead]
    by_cases hak : a = k
    · subst hak
      rw [if_pos rfl, if_pos (List.mem_cons_self a t), if_neg hkt]
      omega
    · rw [if_neg hak]
      have hmem : (a ∈ k :: t) ↔ a ∈ t := by
        simp [List.mem_cons, hak]
      by_cases hat : a ∈ t
      · rw [if_pos hat, if_pos (hmem.mpr hat)]
        omega
      · rw [if_neg hat, if_neg (fun h => hat (hmem.mp h))]
        omega

theorem sum_groupLen_dedup_filter {α : Type} [DecidableEq α] (P : α → Bool) :
    ∀ m : List α,
      ((m.dedup.filter P).map (fun k => (m.filter (fun x => x == k)).length)).sum
        = (m.filter P).length
  | [] => by simp
  | a :: m => by
    have hnd : (m.dedup.filter P).Nodup := (List.nodup_dedup m).filter P
    by_cases ha : a ∈ m
    · rw [List.dedup_cons_of_mem ha, sum_len_filter_cons a m _ hnd,
        sum_groupLen_dedup_filter P m, List.filter_cons]
      have hmem : (a ∈ m.dedup.filter P) ↔ P a = true := by
        simp [List.mem_filter, List.mem_dedup, ha]
      by_cases hpa : P a = true
      · rw [if_pos hpa, if_pos (hmem.mpr hpa), List.length_cons]
      · rw [if_neg hpa, if_neg (fun h => hpa (hmem.mp h))]
        omega
    · rw [List.dedup_cons_of_not_mem ha, List.filter_cons, List.filter_cons]
      have hand : a ∉ m.dedup.filter P :=
        fun h => ha (List.mem_dedup.mp (List.mem_of_mem_filter h))
      by_cases hpa : P a = true
      · rw [if_pos hpa, if_pos hpa, List.map_cons, List.sum_cons,
          sum_len_filter_cons a m _ hnd, sum_groupLen_dedup_filter P m,
          if_neg hand, List.filter_cons, if_pos (by simp : ((a == a) = true)),
          filter_beq_nil ha]
        simp only [List.length_cons, List.length_nil]
        omega
      · rw [if_neg hpa, if_neg hpa, sum_len_filter_cons a m _ hnd,
          sum_groupLen_dedup_filter P m, if_neg hand]
        omega

/-! ## Lemmas about the tax-summary fold and `$group` statistics -/

theorem taxStep_skip (D : List Category) (acc : TaxSummary) (g : TaxGroup)
    (h : pbSectionK g.key = false) : taxStep D acc g = acc := by
  unfold taxStep
  cases hsec : g.key.«section» with
  | none => rfl
  | some s =>
    have h12 : ¬(s = ("personal" : String)) ∧ ¬(s = ("business" : String)) := by
      simpa [pbSectionK, hsec] using h
    simp [h12.1, h12.2]

theorem taxStep_personal (D : List Category) (acc : TaxSummary) (g : TaxGroup)
    (h : g.key.«section» = some ("personal")) :
    taxStep D acc g = TaxSummary.mk (acc.personal ++ [taxRowOf D g]) acc.business
      (addTotals acc.totalsPersonal g) acc.totalsBusiness := by
  unfold taxStep
  rw [h]
  simp

theorem taxStep_business (D : List Category) (acc : TaxSummary) (g : TaxGroup)
    (h : g.key.«section» = some ("business")) :
    taxStep D acc g = TaxSummary.mk acc.personal (acc.business ++ [taxRowOf D g])
      acc.totalsPersonal (addTotals acc.totalsBusiness g) := by
  unfold taxStep
  rw [h]
  simp

theorem foldl_taxStep_spec (D : List Category) :
    ∀ (L : List TaxGroup) (acc : TaxSummary),
      L.foldl (taxStep D) acc = TaxSummary.mk
        (acc.personal ++ ((L.filter (secIs ("personal"))).map (taxRowOf D)))
        (acc.business ++ ((L.filter (secIs ("business"))).map (taxRowOf D)))
        (Totals3.mk
          (acc.totalsPersonal.total + (((L.filter (secIs ("personal"))).map TaxGroup.total).sum))
          (acc.totalsPersonal.tax + (((L.filter (secIs ("personal"))).map TaxGroup.tax).sum))
          (acc.totalsPersonal.count + (((L.filter (secIs ("personal"))).map TaxGroup.count).sum)))
        (Totals3.mk
          (acc.totalsBusiness.total + (((L.filter (secIs ("business"))).map TaxGroup.total).sum))
          (acc.totalsBusiness.tax + (((L.filter (secIs ("business"))).map TaxGroup.tax).sum))
          (acc.totalsBusiness.count + (((L.filter (secIs ("business"))).map TaxGroup.count).sum)))
  | [], acc => by
    cases acc with
    | mk p b tp tb =>
      cases tp with
      | mk tpt tptax tpc =>
        cases tb with
        | mk tbt tbtax tbc => simp
  | g :: L, acc => by
    rw [List.foldl_cons, foldl_taxStep_spec D L (taxStep D acc g)]
    cases hsec : g.key.«section» with
    | none =>
      have hskip := taxStep_skip D acc g (by simp [pbSectionK, hsec])
      have hp : secIs ("personal") g = false := by simp [secIs, hsec]
      have hb : secIs ("business") g = false := by simp [secIs, hsec]
      rw [hskip, List.filter_cons, if_neg (by simp [hp]), List.filter_cons,
        if_neg (by simp [hb])]
    | some s =>
      by_cases hps : s = ("personal" : String)
      · subst hps
        have hstep := taxStep_personal D acc g hsec
        have hp : secIs ("personal") g = true := by simp [secIs, hsec]
        have hb : secIs ("business") g = false := by simp [secIs, hsec]
        rw [hstep, List.filter_cons, if_pos (by simp [hp]), List.filter_cons,
          if_neg (by simp [hb])]
        simp only [addTotals, List.map_cons, List.sum_cons, List.append_assoc,
          List.singleton_append, add_assoc]
      · by_cases hbs : s = ("business" : String)
        · subst hbs
          have hstep := taxStep_business D acc g hsec
          have hp : secIs ("personal") g = false := by simp [secIs, hsec]
          have hb : secIs ("business") g = true := by simp [secIs, hsec]
          rw [hstep, List.filter_cons, if_neg (by simp [hp]), List.filter_cons,
            if_pos (by simp [hb])]
          simp only [addTotals, List.map_cons, List.sum_cons, List.append_assoc,
            List.singleton_append, add_assoc]
        · have hskip := taxStep_skip D acc g (by simp [pbSectionK, hsec, hps, hbs])
          have hp : secIs ("personal") g = false := by simp [secIs, hsec, hps]
          have hb : secIs ("business") g = false := by simp [secIs, hsec, hbs]
          rw [hskip, List.filter_cons, if_neg (by simp [hp]), List.filter_cons,
            if_neg (by simp [hb])]

theorem groupTax_filter_key (rs : List Receipt) (P : TaxKey → Bool) :
    (groupTax rs).filter (fun g => P g.key)
      = ((taxKeys rs).filter P).map (taxGroupOf rs) := by
  unfold groupTax
  rw [List.filter_map]
  congr 1

theorem sum_counts_group_filter (rs : List Receipt) (P : TaxKey → Bool) :
    (((groupTax rs).filter (fun g => P g.key)).map TaxGroup.count).sum
      = (rs.filter (fun r => P (TaxKey.mk r.«section» r.category_id))).length := by
  rw [groupTax_filter_key, List.map_map]
  have h1 : ∀ k ∈ (taxKeys rs).filter P,
      (TaxGroup.count ∘ taxGroupOf rs) k
        = (((rs.map (fun r => TaxKey.mk r.«section» r.category_id)).filter
            (fun x => x == k)).length) := by
    intro k _
    show (rs.filter (fun r => TaxKey.mk r.«section» r.category_id == k)).length = _
    rw [List.filter_map, List.length_map]
    rfl
  rw [List.map_congr_left h1]
  have h2 := sum_groupLen_dedup_filter P
    (rs.map (fun r => TaxKey.mk r.«section» r.category_id))
  rw [show taxKeys rs = (rs.map (fun r => TaxKey.mk r.«section» r.category_id)).dedup
      from rfl, h2, List.filter_map, List.length_map]
  rfl

theorem partition_pb_count (l : List Receipt) (h : ∀ r ∈ l, pbSectionR r = true) :
    (l.filter (fun r => r.«section» == some ("personal"))).length
      + (l.filter (fun r => r.«section» == some ("business"))).length = l.length := by
  induction l with
  | nil => rfl
  | cons r t ih =>
    have hr : (r.«section» == some ("personal")) = true
        ∨ (r.«section» == some ("business")) = true := by
      have := h r (List.mem_cons_self r t)
      simpa [pbSectionR] using this
    have ih' := ih (fun x hx => h x (List.mem_cons_of_mem r hx))
    rw [List.filter_cons, List.filter_cons]
    rcases hr with hp | hb
    · have hsec : r.«section» = some ("personal") := by simpa using hp
      have hnb : ¬((r.«section» == some ("business")) = true) := by simp [hsec]
      rw [if_pos hp, if_neg hnb]
      simp only [List.length_cons]
      omega
    · have hsec : r.«section» = some ("business") := by simpa using hb
      have hnp : ¬((r.«section» == some ("personal")) = true) := by simp [hsec]
      rw [if_neg hnp, if_pos hb]
      simp only [List.length_cons]
      omega

/-! ## Claim C5 -/

/-- Claim C5 (amended): the tax summary's per-section running totals (total,
tax, count) each equal the sums of the corresponding fields over that
section's rows of the returned summary; and when every matched receipt's
section is either "personal" or "business" AND the matched receipts form at
most 200 distinct (section, category_id) groups (the pipeline is read with
`to_list(200)`), the two counts partition the matched receipt set exactly. -/
theorem claim_C5_amended (db : List Receipt) (cats : List Category) (uid : String)
    (df dt sq : Option String) :
    ((getTaxSummary db cats uid df dt sq).totalsPersonal.total
        = ((getTaxSummary db cats uid df dt sq).personal.map TaxRow.total).sum
      ∧ (getTaxSummary db cats uid df dt sq).totalsPersonal.tax
        = ((getTaxSummary db cats uid df dt sq).personal.map TaxRow.tax).sum
      ∧ (getTaxSummary db cats uid df dt sq).totalsPersonal.count
        = ((getTaxSummary db cats uid df dt sq).personal.map TaxRow.count).sum
      ∧ (getTaxSummary db cats uid df dt sq).totalsBusiness.total
        = ((getTaxSummary db cats uid df dt sq).business.map TaxRow.total).sum
      ∧ (getTaxSummary db cats uid df dt sq).totalsBusiness.tax
        = ((getTaxSummary db cats uid df dt sq).business.map TaxRow.tax).sum
      ∧ (getTaxSummary db cats uid df dt sq).totalsBusiness.count
        = ((getTaxSummary db cats uid df dt sq).business.map TaxRow.count).sum)
    ∧ ((∀ r ∈ db.filter (reportQueryPred uid df dt sq), pbSectionR r = true) →
       (groupTax (db.filter (reportQueryPred uid df dt sq))).length ≤ 200 →
       (getTaxSummary db cats uid df dt sq).totalsPersonal.count
         + (getTaxSummary db cats uid df dt sq).totalsBusiness.count
         = (db.filter (reportQueryPred uid df dt sq)).length) := by
  have hS : getTaxSummary db cats uid df dt sq
      = TaxSummary.mk
        (emptyTaxSummary.personal
          ++ (((taxResults db uid df dt sq).filter (secIs ("personal"))).map
            (taxRowOf (taxCatDocs cats (taxResults db uid df dt sq)))))
        (emptyTaxSummary.business
          ++ (((taxResults db uid df dt sq).filter (secIs ("business"))).map
            (taxRowOf (taxCatDocs cats (taxResults db uid df dt sq)))))
        (Totals3.mk
          (emptyTaxSummary.totalsPersonal.total
            + ((((taxResults db uid df dt sq).filter (secIs ("personal"))).map
              TaxGroup.total).sum))
          (emptyTaxSummary.totalsPersonal.tax
            + ((((taxResults db uid df dt sq).filter (secIs ("personal"))).map
              TaxGroup.tax).sum))
          (emptyTaxSummary.totalsPersonal.count
            + ((((taxResults db uid df dt sq).filter (secIs ("personal"))).map
              TaxGroup.count).sum)))
        (Totals3.mk
          (emptyTaxSummary.totalsBusiness.total
            + ((((taxResults db uid df dt sq).filter (secIs ("business"))).map
              TaxGroup.total).sum))
          (emptyTaxSummary.totalsBusiness.tax
            + ((((taxResults db uid df dt sq).filter (secIs ("business"))).map
              TaxGroup.tax).sum))
          (emptyTaxSummary.totalsBusiness.count
            + ((((taxResults db uid df dt sq).filter (secIs ("business"))).map
              TaxGroup.count).sum))) :=
    foldl_taxStep_spec (taxCatDocs cats (taxResults db uid df dt sq))
      (taxResults db uid df dt sq) emptyTaxSummary
  constructor
  · rw [hS]
    refine ⟨?_, ?_, ?_, ?_, ?_, ?_⟩ <;>
      (simp only [emptyTaxSummary, List.nil_append, List.map_map]; rw [zero_add]; rfl)
  · intro hpb h200
    have hX : taxResults db uid df dt sq
        = ((groupTax (db.filter (reportQueryPred uid df dt sq))).insertionSort
            taxGroupLe).take 200 := rfl
    have hlen : ((groupTax (db.filter (reportQueryPred uid df dt sq))).insertionSort
        taxGroupLe).length ≤ 200 := by
      rw [List.length_insertionSort]
      exact h200
    have hXfull : taxResults db uid df dt sq
        = (groupTax (db.filter (reportQueryPred uid df dt sq))).insertionSort
            taxGroupLe := by
      rw [hX, List.take_of_length_le hlen]
    have hsum : ∀ s : String,
        (((taxResults db uid df dt sq).filter (secIs s)).map TaxGroup.count).sum
          = ((db.filter (reportQueryPred uid df dt sq)).filter
              (fun r => r.«section» == some s)).length := by
      intro s
      rw [hXfull]
      have hperm : List.Perm
          (((groupTax (db.filter (reportQueryPred uid df dt sq))).insertionSort
            taxGroupLe).filter (secIs s))
          ((groupTax (db.filter (reportQueryPred uid df dt sq))).filter (secIs s)) :=
        (List.perm_insertionSort taxGroupLe _).filter _
      rw [(hperm.map TaxGroup.count).sum_eq]
      exact sum_counts_group_filter (db.filter (reportQueryPred uid df dt sq))
        (fun k => k.«section» == some s)
    rw [hS]
    show emptyTaxSummary.totalsPersonal.count
        + (((taxResults db uid df dt sq).filter (secIs ("personal"))).map
          TaxGroup.count).sum
      + (emptyTaxSummary.totalsBusiness.count
        + (((taxResults db uid df dt sq).filter (secIs ("business"))).map
          TaxGroup.count).sum)
      = (db.filter (reportQueryPred uid df dt sq)).length
    rw [hsum ("personal"), hsum ("business")]
    show 0 + _ + (0 + _) = _
    rw [zero_add, zero_add]
    exact partition_pb_count (db.filter (reportQueryPred uid df dt sq)) hpb

set_option maxRecDepth 8000 in
/-- Claim C5 witness: on a store with one personal and one business receipt,
both hypotheses of the partition part hold and the theorem applies. -/
theorem claim_C5_witness :
    (getTaxSummary smallDb5 [] ("u") none none none).totalsPersonal.count
      + (getTaxSummary smallDb5 [] ("u") none none none).totalsBusiness.count
      = (smallDb5.filter (reportQueryPred ("u") none none none)).length :=
  (claim_C5_amended smallDb5 [] ("u") none none none).2
    (by decide) (by decide)

theorem taxSummary_mk_totalsPersonal (p b : List TaxRow) (tp tb : Totals3) :
    (TaxSummary.mk p b tp tb).totalsPersonal = tp := rfl

theorem taxSummary_mk_totalsBusiness (p b : List TaxRow) (tp tb : Totals3) :
    (TaxSummary.mk p b tp tb).totalsBusiness = tb := rfl

theorem totals3_mk_count (t x : ℚ) (c : ℕ) : (Totals3.mk t x c).count = c := rfl

set_option maxRecDepth 8000 in
/-- Claim C5 counterexample: with 201 receipts in 201 distinct
(personal, category) groups — all of them "personal" — the pipeline's
`to_list(200)` bound drops one group, so the per-section counts sum to 200
while 201 receipts matched: the counts do NOT partition the matched set,
refuting the claim as stated. -/
theorem claim_C5_counterexample :
    (bigDb5.filter (reportQueryPred ("u") none none none)).all pbSectionR = true
    ∧ (getTaxSummary bigDb5 [] ("u") none none none).totalsPersonal.count
        + (getTaxSummary bigDb5 [] ("u") none none none).totalsBusiness.count = 200
    ∧ (bigDb5.filter (reportQueryPred ("u") none none none)).length = 201 := by
  have hP : ∀ r ∈ bigDb5, reportQueryPred ("u") none none none r = true := by
    intro r hr
    obtain ⟨i, _, rfl⟩ := List.mem_map.mp hr
    rfl
  have hfilter : bigDb5.filter (reportQueryPred ("u") none none none) = bigDb5 :=
    List.filter_eq_self.mpr hP
  have hlen : bigDb5.length = 201 := by
    rw [show bigDb5 = (List.range 201).map seqReceipt from rfl, List.length_map,
      List.length_range]
  have hsecR : ∀ r ∈ bigDb5, r.«section» = some ("personal") := by
    intro r hr
    obtain ⟨i, _, rfl⟩ := List.mem_map.mp hr
    rfl
  have hkeymap : bigDb5.map (fun r => TaxKey.mk r.«section» r.category_id)
      = (List.range 201).map (fun i => TaxKey.mk (some ("personal"))
          (some (String.mk (List.replicate i ('x'))))) := by
    rw [show bigDb5 = (List.range 201).map seqReceipt from rfl, List.map_map]
    exact List.map_congr_left (fun i _ => rfl)
  have hinj : Function.Injective (fun i : ℕ => TaxKey.mk (some ("personal"))
      (some (String.mk (List.replicate i ('x'))))) := by
    intro i j h
    have h1 : String.mk (List.replicate i ('x')) = String.mk (List.replicate j ('x')) := by
      simpa using h
    have h2 : List.replicate i ('x') = List.replicate j ('x') := congrArg String.data h1
    have h3 := congrArg List.length h2
    simpa using h3
  have hnodup : (bigDb5.map (fun r => TaxKey.mk r.«section» r.category_id)).Nodup := by
    rw [hkeymap]
    exact List.Nodup.map hinj (List.nodup_range 201)
  have htk : taxKeys bigDb5
      = bigDb5.map (fun r => TaxKey.mk r.«section» r.category_id) :=
    List.dedup_eq_self.mpr hnodup
  have hglen : (groupTax bigDb5).length = 201 := by
    rw [show groupTax bigDb5 = (taxKeys bigDb5).map (taxGroupOf bigDb5) from rfl,
      List.length_map, htk, List.length_map, hlen]
  have hsecG : ∀ g ∈ groupTax bigDb5, g.key.«section» = some ("personal") := by
    intro g hg
    obtain ⟨k, hk, rfl⟩ := List.mem_map.mp hg
    show k.«section» = some ("personal")
    rw [htk] at hk
    obtain ⟨r, hr, rfl⟩ := List.mem_map.mp hk
    exact hsecR r hr
  have hcnt1 : ∀ g ∈ groupTax bigDb5, g.count = 1 := by
    intro g hg
    obtain ⟨k, hk, rfl⟩ := List.mem_map.mp hg
    show (bigDb5.filter (fun r => TaxKey.mk r.«section» r.category_id == k)).length = 1
    have e1 : ((bigDb5.map (fun r => TaxKey.mk r.«section» r.category_id)).filter
        (fun x => x == k)).length
        = (bigDb5.filter (fun r => TaxKey.mk r.«section» r.category_id == k)).length := by
      rw [List.filter_map, List.length_map]
      rfl
    rw [← e1]
    rw [htk] at hk
    exact length_filter_beq_of_nodup hnodup hk
  have hSperm : List.Perm ((groupTax bigDb5).insertionSort taxGroupLe)
      (groupTax bigDb5) :=
    List.perm_insertionSort taxGroupLe (groupTax bigDb5)
  have hSlen : ((groupTax bigDb5).insertionSort taxGroupLe).length = 201 := by
    rw [List.length_insertionSort, hglen]
  have hSsec : ∀ g ∈ (groupTax bigDb5).insertionSort taxGroupLe,
      g.key.«section» = some ("personal") :=
    fun g hg => hsecG g (hSperm.mem_iff.mp hg)
  have hScnt : ∀ g ∈ (groupTax bigDb5).insertionSort taxGroupLe, g.count = 1 :=
    fun g hg => hcnt1 g (hSperm.mem_iff.mp hg)
  have hSsum : (((groupTax bigDb5).insertionSort taxGroupLe).map
      TaxGroup.count).sum = 201 := by
    rw [sum_map_eq_length_of_one TaxGroup.count _ hScnt, hSlen]
  have hsplit : (((groupTax bigDb5).insertionSort taxGroupLe).map TaxGroup.count).sum
      = ((((groupTax bigDb5).insertionSort taxGroupLe).take 200).map
          TaxGroup.count).sum
        + ((((groupTax bigDb5).insertionSort taxGroupLe).drop 200).map
            TaxGroup.count).sum := by
    conv_lhs =>
      rw [← List.take_append_drop 200 ((groupTax bigDb5).insertionSort taxGroupLe)]
    rw [List.map_append, List.sum_append]
  have hdlen : (((groupTax bigDb5).insertionSort taxGroupLe).drop 200).length = 1 := by
    rw [List.length_drop, hSlen]
  obtain ⟨a, hda⟩ := List.length_eq_one.mp hdlen
  have haS : a ∈ (groupTax bigDb5).insertionSort taxGroupLe :=
    List.mem_of_mem_drop (by rw [hda]; exact List.mem_singleton_self a)
  have hdsum : ((((groupTax bigDb5).insertionSort taxGroupLe).drop 200).map
      TaxGroup.count).sum = 1 := by
    rw [hda, List.map_cons, List.map_nil, List.sum_cons, List.sum_nil, hScnt a haS]
    omega
  have hpsum : ((((groupTax bigDb5).insertionSort taxGroupLe).take 200).map
      TaxGroup.count).sum = 200 := by
    rw [hsplit, hdsum] at hSsum
    omega
  have hres : taxResults bigDb5 ("u") none none none
      = ((groupTax bigDb5).insertionSort taxGroupLe).take 200 := by
    show ((groupTax (bigDb5.filter (reportQueryPred ("u") none none none))).insertionSort
        taxGroupLe).take 200 = _
    rw [hfilter]
  have hRsec : ∀ g ∈ ((groupTax bigDb5).insertionSort taxGroupLe).take 200,
      g.key.«section» = some ("personal") :=
    fun g hg => hSsec g (List.mem_of_mem_take hg)
  have hfp : (((groupTax bigDb5).insertionSort taxGroupLe).take 200).filter
      (secIs ("personal")) = ((groupTax bigDb5).insertionSort taxGroupLe).take 200 :=
    List.filter_eq_self.mpr (fun g hg => by simp [secIs, hRsec g hg])
  have hfb : (((groupTax bigDb5).insertionSort taxGroupLe).take 200).filter
      (secIs ("business")) = [] :=
    List.filter_eq_nil_iff.mpr (fun g hg => by simp [secIs, hRsec g hg])
  have hS2 : getTaxSummary bigDb5 [] ("u") none none none
      = TaxSummary.mk
        (emptyTaxSummary.personal
          ++ (((taxResults bigDb5 ("u") none none none).filter (secIs ("personal"))).map
            (taxRowOf (taxCatDocs [] (taxResults bigDb5 ("u") none none none)))))
        (emptyTaxSummary.business
          ++ (((taxResults bigDb5 ("u") none none none).filter (secIs ("business"))).map
            (taxRowOf (taxCatDocs [] (taxResults bigDb5 ("u") none none none)))))
        (Totals3.mk
          (emptyTaxSummary.totalsPersonal.total
            + ((((taxResults bigDb5 ("u") none none none).filter
              (secIs ("personal"))).map TaxGroup.total).sum))
          (emptyTaxSummary.totalsPersonal.tax
            + ((((taxResults bigDb5 ("u") none none none).filter
              (secIs ("personal"))).map TaxGroup.tax).sum))
          (emptyTaxSummary.totalsPersonal.count
            + ((((taxResults bigDb5 ("u") none none none).filter
              (secIs ("personal"))).map TaxGroup.count).sum)))
        (Totals3.mk
          (emptyTaxSummary.totalsBusiness.total
            + ((((taxResults bigDb5 ("u") none none none).filter
              (secIs ("business"))).map TaxGroup.total).sum))
          (emptyTaxSummary.totalsBusiness.tax
            + ((((taxResults bigDb5 ("u") none none none).filter
              (secIs ("business"))).map TaxGroup.tax).sum))
          (emptyTaxSummary.totalsBusiness.count
            + ((((taxResults bigDb5 ("u") none none none).filter
              (secIs ("business"))).map TaxGroup.count).sum))) :=
    foldl_taxStep_spec (taxCatDocs [] (taxResults bigDb5 ("u") none none none))
      (taxResults bigDb5 ("u") none none none) emptyTaxSummary
  refine ⟨?_, ?_, ?_⟩
  · rw [hfilter]
    exact List.all_eq_true.mpr (fun r hr => by
      obtain ⟨i, _, rfl⟩ := List.mem_map.mp hr
      rfl)
  · have hcp : (getTaxSummary bigDb5 [] ("u") none none none).totalsPersonal.count
        = emptyTaxSummary.totalsPersonal.count
          + (((taxResults bigDb5 ("u") none none none).filter (secIs ("personal"))).map
            TaxGroup.count).sum := by
      rw [hS2, taxSummary_mk_totalsPersonal, totals3_mk_count]
    have hcb : (getTaxSummary bigDb5 [] ("u") none none none).totalsBusiness.count
        = emptyTaxSummary.totalsBusiness.count
          + (((taxResults bigDb5 ("u") none none none).filter (secIs ("business"))).map
            TaxGroup.count).sum := by
      rw [hS2, taxSummary_mk_totalsBusiness, totals3_mk_count]
    rw [hcp, hcb, hres, hfp, hfb, hpsum]
    rfl
  · rw [hfilter]
    exact hlen

/-! ## Claim C10 -/

/-- Claim C10 (confirmed): passing an empty-string value for the `section`,
`category_id`, `search`, `date_from` or `date_to` listing parameter yields
exactly the same page and total as omitting the parameter — Python
truthiness (`if param:`) makes the empty string apply no filter at all. -/
theorem claim_C10 (db : List Receipt) (uid : String) (sec cat sr df dt : Option String)
    (am ax : Option ℚ) (skip limit : ℕ) :
    getReceipts db (ReceiptQuery.mk uid (some ("")) cat sr df dt am ax) skip limit
      = getReceipts db (ReceiptQuery.mk uid none cat sr df dt am ax) skip limit
    ∧ getReceipts db (ReceiptQuery.mk uid sec (some ("")) sr df dt am ax) skip limit
      = getReceipts db (ReceiptQuery.mk uid sec none sr df dt am ax) skip limit
    ∧ getReceipts db (ReceiptQuery.mk uid sec cat (some ("")) df dt am ax) skip limit
      = getReceipts db (ReceiptQuery.mk uid sec cat none df dt am ax) skip limit
    ∧ getReceipts db (ReceiptQuery.mk uid sec cat sr (some ("")) dt am ax) skip limit
      = getReceipts db (ReceiptQuery.mk uid sec cat sr none dt am ax) skip limit
    ∧ getReceipts db (ReceiptQuery.mk uid sec cat sr df (some ("")) am ax) skip limit
      = getReceipts db (ReceiptQuery.mk uid sec cat sr df none am ax) skip limit :=
  ⟨rfl, rfl, rfl, rfl, rfl⟩

/-! ## Claim C6 -/

/-- Claim C6 (confirmed): when the caller has no receipt with date inside the
inclusive window, the window aggregate of the dashboard (both the monthly and
the yearly figure) is `{total: 0, tax: 0, count: 0}`; the aggregate is a
total function, so no error is signalled. -/
theorem claim_C6 (db : List Receipt) (uid fromD toD : String)
    (h : ∀ r ∈ db, r.user_id = uid →
      ¬(strLe fromD r.date = true ∧ strLe r.date toD = true)) :
    windowTotal db uid fromD toD = Totals3.mk 0 0 0
    ∧ dashboardMonthly db uid fromD toD = Totals3.mk 0 0 0
    ∧ dashboardYearly db uid fromD toD = Totals3.mk 0 0 0 := by
  have hemp : db.filter (windowMatch uid fromD toD) = [] := by
    rw [List.filter_eq_nil_iff]
    intro r hr
    intro hm
    have hm2 : (r.user_id = uid ∧ strLe fromD r.date = true)
        ∧ strLe r.date toD = true := by
      simpa [windowMatch, Bool.and_eq_true] using hm
    exact h r hr hm2.1.1 ⟨hm2.1.2, hm2.2⟩
  have hz : windowTotal db uid fromD toD = Totals3.mk 0 0 0 := by
    unfold windowTotal
    rw [hemp]
    rfl
  exact ⟨hz, hz, hz⟩

/-- Claim C6 witness: a receipt dated 2025-06-15 is outside the July 2025
window, so the aggregate is the zero record. -/
theorem claim_C6_witness :
    windowTotal [pRec] ("u") ("2025-07-01") ("2025-07-31") = Totals3.mk 0 0 0 :=
  (claim_C6 [pRec] ("u") ("2025-07-01") ("2025-07-31") (by decide)).1

/-! ## Claim C8 -/

theorem stripPassword_no_hash (u : UserDoc) :
    ¬(("password_hash" : String) ∈ (stripPassword u).map Prod.fst) := by
  intro hmem
  rcases List.mem_map.mp hmem with ⟨kv, hkv, hfst⟩
  have hp := (List.mem_filter.mp hkv).2
  rw [hfst] at hp
  simp at hp

/-- Claim C8 (confirmed): the record produced by the authorization gate
(hence the `GET /auth/me` response) and the user record returned by
`PUT /settings` never contain the `password_hash` field. -/
theorem claim_C8 :
    (∀ (sessions : List Session) (users : List UserDoc) (header : Option String)
      (now : ℤ) (u : UserDoc),
      (getCurrentUser sessions users header now).1 = AuthResult.ok u →
        ¬(("password_hash" : String) ∈ u.map Prod.fst))
    ∧ (∀ (users : List UserDoc) (uid : String) (currency theme : Option String)
      (u : UserDoc),
      updateSettings users uid currency theme = some u →
        ¬(("password_hash" : String) ∈ u.map Prod.fst)) := by
  constructor
  · intro sessions users header now u h
    cases header with
    | none => exact AuthResult.noConfusion h
    | some hd =>
      by_cases hb : hd.startsWith ("Bearer ")
      · simp only [getCurrentUser] at h
        rw [if_pos hb] at h
        unfold validateToken at h
        cases hfs : findSession sessions (extractToken hd) with
        | none =>
          rw [hfs] at h
          exact AuthResult.noConfusion h
        | some s =>
          rw [hfs] at h
          simp only [] at h
          unfold validateSessionDoc at h
          by_cases hex : normalizeToUTC s.expires_at < now
          · rw [if_pos hex] at h
            exact AuthResult.noConfusion h
          · rw [if_neg hex] at h
            unfold validUserLookup at h
            cases hfu : findUser users s.user_id with
            | none =>
              rw [hfu] at h
              simp only [] at h
              exact AuthResult.noConfusion h
            | some u0 =>
              rw [hfu] at h
              simp only [] at h
              have h3 : AuthResult.ok (stripPassword u0) = AuthResult.ok u := h
              cases h3
              exact stripPassword_no_hash u0
      · simp only [getCurrentUser] at h
        rw [if_neg hb] at h
        exact AuthResult.noConfusion h
  · intro users uid currency theme u h
    simp only [updateSettings] at h
    cases hfu : findUser (users.map (fun v =>
        if lookupField v ("user_id") == some uid then
          applySet v (settingsUpdates currency theme)
        else v)) uid with
    | none =>
      rw [hfu] at h
      exact Option.noConfusion h
    | some u0 =>
      rw [hfu] at h
      have h3 : some (u0.filter (fun kv => !(kv.1 == ("password_hash" : String))))
          = some u := h
      cases h3
      exact stripPassword_no_hash u0

/-- Claim C8 witness: on the demo store the gate returns a record whose keys
exclude the credential field. -/
theorem claim_C8_witness :
    ¬(("password_hash" : String)
      ∈ ((getCurrentUser demoSessions demoUsers (some (("Bearer ") ++ ("t"))) 0).1.okUser).map Prod.fst) := by
  have happ := claim_C8.1 demoSessions demoUsers (some (("Bearer ") ++ ("t"))) 0
    ((getCurrentUser demoSessions demoUsers (some (("Bearer ") ++ ("t"))) 0).1.okUser)
    (by with_unfolding_all rfl)
  exact happ

/-! ## Claim C1 -/

/-- Claim C1 (amended): session validation rejects exactly when the token has
no session in the store, or the (timezone-normalized) expiry is STRICTLY
before the current instant, or the referenced user no longer exists; the
session store is left unchanged on every path.  In particular a session
whose expiry equals the current instant is ACCEPTED (the code compares with
`expires_at < now`), contrary to the original claim's "less than or equal". -/
theorem claim_C1_amended (sessions : List Session) (users : List UserDoc)
    (token : String) (now : ℤ) :
    ((validateToken sessions users token now).1.isUnauthorized = true
      ↔ (∀ s, findSession sessions token = some s →
          (normalizeToUTC s.expires_at < now ∨ findUser users s.user_id = none)))
    ∧ (validateToken sessions users token now).2 = sessions
    ∧ (∀ s u, findSession sessions token = some s →
        normalizeToUTC s.expires_at = now →
        findUser users s.user_id = some u →
        (validateToken sessions users token now).1 = AuthResult.ok (stripPassword u)) := by
  refine ⟨?_, ?_, ?_⟩
  · unfold validateToken
    cases hfs : findSession sessions token with
    | none =>
      constructor
      · intro _ s2 hs2
        exact Option.noConfusion hs2
      · intro _
        rfl
    | some s =>
      simp only []
      unfold validateSessionDoc
      by_cases hex : normalizeToUTC s.expires_at < now
      · rw [if_pos hex]
        constructor
        · intro _ s2 hs2
          have hss : s = s2 := Option.some.inj hs2
          subst hss
          exact Or.inl hex
        · intro _
          rfl
      · rw [if_neg hex]
        unfold validUserLookup
        cases hfu : findUser users s.user_id with
        | none =>
          constructor
          · intro _ s2 hs2
            have hss : s = s2 := Option.some.inj hs2
            subst hss
            exact Or.inr hfu
          · intro _
            rfl
        | some u =>
          constructor
          · intro hfalse
            exact Bool.noConfusion hfalse
          · intro hall
            rcases hall s rfl with hlt | hnone
            · exact absurd hlt hex
            · rw [hfu] at hnone
              exact Option.noConfusion hnone
  · unfold validateToken
    cases findSession sessions token with
    | none => rfl
    | some s =>
      simp only []
      unfold validateSessionDoc
      by_cases hex : normalizeToUTC s.expires_at < now
      · rw [if_pos hex]
      · rw [if_neg hex]
        unfold validUserLookup
        cases findUser users s.user_id with
        | none => rfl
        | some u => rfl
  · intro s u hfs heq hfu
    unfold validateToken
    rw [hfs]
    simp only []
    unfold validateSessionDoc
    rw [if_neg (by rw [heq]; exact lt_irrefl now)]
    unfold validUserLookup
    rw [hfu]

/-- Claim C1 witness: on the demo store (expiry 100, user present), the
amended theorem applied at `now = 99` plus the boundary clause at
`now = 100` both yield the gate's acceptance of the session. -/
theorem claim_C1_witness :
    (validateToken demoSessions demoUsers ("t") 100).1
      = AuthResult.ok (stripPassword
        [(("user_id"), ("u1")), (("name"), ("A")), (("password_hash"), ("h"))]) :=
  (claim_C1_amended demoSessions demoUsers ("t") 100).2.2 demoSession
    [(("user_id"), ("u1")), (("name"), ("A")), (("password_hash"), ("h"))]
    rfl rfl rfl

/-- Claim C1 counterexample: a session whose normalized expiry EQUALS the
current instant (expiry ≤ now) is accepted by `get_current_user`, while the
claim states validation must fail at that instant. -/
theorem claim_C1_counterexample :
    normalizeToUTC demoSession.expires_at = 100
    ∧ findSession demoSessions ("t") = some demoSession
    ∧ (validateToken demoSessions demoUsers ("t") 100).1.isUnauthorized = false :=
  ⟨rfl, rfl, rfl⟩

/-! ## Claim C3 -/

/-- Claim C3 (confirmed): every page returned by `get_receipts` consists only
of receipts matching all the given filters, is ordered by date descending,
and the reported `total` is the number of all matching receipts, independent
of `skip`/`limit`; with a (truthy) section filter every returned receipt has
exactly that section, and the default page size is 50. -/
theorem claim_C3 (db : List Receipt) (q : ReceiptQuery) (skip limit : ℕ) :
    (∀ r ∈ (getReceipts db q skip limit).receipts, matchesReceiptQuery q r = true)
    ∧ List.Sorted dateDescRel (getReceipts db q skip limit).receipts
    ∧ (getReceipts db q skip limit).total = (db.filter (matchesReceiptQuery q)).length
    ∧ (∀ skip2 limit2 : ℕ, (getReceipts db q skip limit).total
        = (getReceipts db q skip2 limit2).total)
    ∧ (∀ s, q.«section» = some s → ¬(s = ("" : String)) →
        ∀ r ∈ (getReceipts db q skip limit).receipts, r.«section» = some s)
    ∧ (getReceiptsDefault db q).receipts.length ≤ defaultLimit := by
  have hsub : List.Sublist
      ((((db.filter (matchesReceiptQuery q)).insertionSort dateDescRel).drop
        skip).take limit)
      ((db.filter (matchesReceiptQuery q)).insertionSort dateDescRel) :=
    (List.take_sublist _ _).trans (List.drop_sublist _ _)
  have hmem : ∀ r ∈ (getReceipts db q skip limit).receipts,
      matchesReceiptQuery q r = true := by
    intro r hr
    have hr2 : r ∈ (db.filter (matchesReceiptQuery q)).insertionSort dateDescRel :=
      hsub.subset hr
    have hr3 : r ∈ db.filter (matchesReceiptQuery q) :=
      (List.perm_insertionSort dateDescRel _).subset hr2
    exact List.of_mem_filter hr3
  refine ⟨hmem, ?_, rfl, fun _ _ => rfl, ?_, ?_⟩
  · exact List.Pairwise.sublist hsub (List.sorted_insertionSort dateDescRel _)
  · intro s hqs hs r hr
    have hm := hmem r hr
    have hparts : eqOptFilter q.«section» r.«section» = true := by
      simp only [matchesReceiptQuery, Bool.and_eq_true] at hm
      exact hm.1.1.1.1.1.1.2
    rw [hqs] at hparts
    have hbeq : ¬((s == ("" : String)) = true) := by simpa using hs
    rw [eqOptFilter, if_neg hbeq] at hparts
    exact beq_iff_eq.mp hparts
  · exact List.length_take_le _ _

/-- Claim C3 witness: on a three-receipt store with the "personal" section
filter, the first returned receipt indeed matches the query. -/
theorem claim_C3_witness : matchesReceiptQuery queryPersonal recA = true :=
  (claim_C3 db3w queryPersonal 0 50).1 recA
    (by with_unfolding_all exact List.Mem.head _)

/-! ## Claim C7 -/

theorem repr_len_one : ∀ n : ℕ, n < 10 → (Nat.repr n).length = 1 := by decide

theorem repr_len_two : ∀ n : ℕ, n < 100 → 10 ≤ n → (Nat.repr n).length = 2 := by decide

/-- Claim C7 (confirmed): every completed CSV export emits the fixed header
as its first row; every data row is the `csvRow` of a matched receipt, whose
Section field is the receipt's section title-cased and whose Total and Tax
fields are the amounts formatted by `format2`; and `format2` always renders
exactly two digits after the decimal point. -/
theorem claim_C7 (db : List Receipt) (cats : List Category) (uid : String)
    (df dt sq : Option String) (rows : List (List String))
    (h : exportCsv db cats uid df dt sq = some rows) :
    rows.head? = some csvHeader
    ∧ rows.tail = (exportReceipts db uid df dt sq).map
        (csvRow (exportCatDocs db cats uid df dt sq))
    ∧ (∀ r s, r ∈ exportReceipts db uid df dt sq → r.«section» = some s →
        (csvRow (exportCatDocs db cats uid df dt sq) r).get? 2 = some (titleCase s)
        ∧ (csvRow (exportCatDocs db cats uid df dt sq) r).get? 4 = some (format2 r.total)
        ∧ (csvRow (exportCatDocs db cats uid df dt sq) r).get? 5 = some (format2 r.tax))
    ∧ (∀ q : ℚ, ∃ a b : String,
        format2 q = a ++ ("." : String) ++ b ∧ b.length = 2) := by
  simp only [exportCsv] at h
  split at h
  case isFalse => exact Option.noConfusion h
  case isTrue hall =>
    have hrows := Option.some.inj h
    subst hrows
    refine ⟨rfl, rfl, ?_, ?_⟩
    · intro r s _ hsec
      refine ⟨?_, rfl, rfl⟩
      simp [csvRow, hsec]
    · intro q
      refine ⟨(if round (q * 100) < 0 then ("-" : String) else ("" : String))
          ++ Nat.repr ((round (q * 100)).natAbs / 100),
        (if (round (q * 100)).natAbs % 100 < 10 then
          ("0" : String) ++ Nat.repr ((round (q * 100)).natAbs % 100)
        else Nat.repr ((round (q * 100)).natAbs % 100)), ?_, ?_⟩
      · simp only [format2, String.append_assoc]
      · have hlt : (round (q * 100)).natAbs % 100 < 100 :=
          Nat.mod_lt _ (by norm_num)
        by_cases h10 : (round (q * 100)).natAbs % 100 < 10
        · rw [if_pos h10, String.length_append,
            repr_len_one ((round (q * 100)).natAbs % 100) h10]
          rfl
        · rw [if_neg h10]
          exact repr_len_two ((round (q * 100)).natAbs % 100) hlt (Nat.le_of_not_lt h10)

/-- Claim C7 witness: for a receipt with total 99.99 and tax 12.99 the
export's Total field is `format2` of the total, which renders "99.99" (and
the tax renders "12.99"). -/
theorem claim_C7_witness :
    (csvRow (exportCatDocs db7w [] ("u") none none none) rec7).get? 4
        = some (format2 rec7.total)
    ∧ format2 (99.99 : ℚ) = ("99.99")
    ∧ format2 (12.99 : ℚ) = ("12.99") := by
  refine ⟨?_, ?_, ?_⟩
  · exact ((claim_C7 db7w [] ("u") none none none
      (csvHeader :: (exportReceipts db7w ("u") none none none).map
        (csvRow (exportCatDocs db7w [] ("u") none none none)))
      (by with_unfolding_all rfl)).2.2.1 rec7 ("personal")
      (by with_unfolding_all exact List.Mem.head _) rfl).2.1
  · with_unfolding_all rfl
  · with_unfolding_all rfl

/-! ## Claim C2 -/

theorem reMatchAcc_nil_pos : ∀ ps : List RTok, reMatchAcc ps [] = []
  | [] => rfl
  | t :: ps => by
    show reMatchAcc ps (([] : List (List Char)).flatMap (tokMatches t)) = []
    rw [List.flatMap_nil]
    exact reMatchAcc_nil_pos ps

theorem reMatchAcc_lits : ∀ (cs xs : List Char),
    reMatchAcc (cs.map RTok.lit) [xs]
      = (if (cs.map Char.toLower).isPrefixOf (xs.map Char.toLower) then
          [xs.drop cs.length] else [])
  | [], xs => by simp [reMatchAcc, List.isPrefixOf]
  | c :: cs, xs => by
    cases xs with
    | nil =>
      show reMatchAcc (cs.map RTok.lit) ([[]].flatMap (tokMatches (RTok.lit c))) = _
      have h1 : ([[]] : List (List Char)).flatMap (tokMatches (RTok.lit c)) = [] := rfl
      rw [h1, reMatchAcc_nil_pos]
      simp [List.isPrefixOf]
    | cons x rest =>
      show reMatchAcc (cs.map RTok.lit)
          ([x :: rest].flatMap (tokMatches (RTok.lit c))) = _
      have h1 : ([x :: rest] : List (List Char)).flatMap (tokMatches (RTok.lit c))
          = (if c.toLower == x.toLower then [rest] else []) := by
        simp [tokMatches]
      rw [h1]
      by_cases heq : (c.toLower == x.toLower) = true
      · rw [if_pos heq, reMatchAcc_lits cs rest]
        simp [List.isPrefixOf, heq]
      · rw [if_neg heq, reMatchAcc_nil_pos]
        simp only [List.map_cons, List.isPrefixOf]
        simp [heq]

theorem reMatch_lits (cs xs : List Char) :
    reMatch (cs.map RTok.lit) xs
      = (cs.map Char.toLower).isPrefixOf (xs.map Char.toLower) := by
  rw [reMatch, reMatchAcc_lits]
  by_cases h : (cs.map Char.toLower).isPrefixOf (xs.map Char.toLower) = true
  · simp [h]
  · simp only [Bool.not_eq_true] at h
    simp [h]

theorem reSearch_lits : ∀ (cs xs : List Char),
    reSearch (cs.map RTok.lit) xs
      = containsSub (cs.map Char.toLower) (xs.map Char.toLower)
  | cs, [] => by
    show reMatch (cs.map RTok.lit) [] = _
    rw [reMatch_lits]
    cases cs with
    | nil => rfl
    | cons c cs => rfl
  | cs, x :: xs => by
    show (reMatch (cs.map RTok.lit) (x :: xs) || reSearch (cs.map RTok.lit) xs) = _
    rw [reMatch_lits, reSearch_lits cs xs]
    rfl

theorem containsSub_nil_pat : ∀ t : List Char, containsSub [] t = true
  | [] => rfl
  | c :: t => by
    show (List.isPrefixOf [] (c :: t) || containsSub [] t) = true
    rw [containsSub_nil_pat t]
    simp [List.isPrefixOf]

theorem parseRegex_nometa : ∀ cs : List Char,
    (∀ c ∈ cs, isRegexMeta c = false) → parseRegex cs = some (cs.map RTok.lit)
  | [], _ => rfl
  | [c], h => by
    have hc := h c (List.mem_cons_self c [])
    have hcdot : ¬(c = '.') := by
      rintro rfl
      simp [isRegexMeta] at hc
    simp only [parseRegex]
    rw [if_neg hcdot, if_neg (by simp [hc]), List.map_cons, List.map_nil]
  | c :: d :: rest, h => by
    have hc := h c (List.mem_cons_self c (d :: rest))
    have hd := h d (List.mem_cons_of_mem c (List.mem_cons_self d rest))
    have hcdot : ¬(c = '.') := by
      rintro rfl
      simp [isRegexMeta] at hc
    have hdstar : ¬(d = '*') := by
      rintro rfl
      simp [isRegexMeta] at hd
    have ih := parseRegex_nometa (d :: rest)
      (fun e he => h e (List.mem_cons_of_mem c he))
    simp only [parseRegex]
    rw [if_neg hcdot, if_neg (by simp [hc]), if_neg hdstar, ih]
    rfl

/-- Claim C2 (amended): the merchant-name search interprets the search string
as a case-insensitive regular expression, not as a literal substring.  For
every search string free of regex metacharacters the filter coincides with
case-insensitive substring containment (the spec's reading); a metacharacter
such as `.` is interpreted as a regex operator. -/
theorem claim_C2_amended (s merchant : String)
    (h : s.data.all (fun c => !(isRegexMeta c)) = true) :
    searchFilter (some s) merchant = specSubstringCI s merchant := by
  by_cases hs : s = ("" : String)
  · subst hs
    show true = specSubstringCI ("") merchant
    exact (containsSub_nil_pat _).symm
  · have hbeq : ¬((s == ("" : String)) = true) := by simpa using hs
    have hall : ∀ c ∈ s.data, isRegexMeta c = false := by
      intro c hc
      have := List.all_eq_true.mp h c hc
      simpa using this
    simp only [searchFilter]
    rw [if_neg hbeq]
    simp only [merchantRegexMatch, parseRegex_nometa s.data hall]
    rw [reSearch_lits]
    rfl

/-- Claim C2 witness: for the metacharacter-free search "cafe" the filter is
exactly case-insensitive substring containment, and "My Cafe Shop" matches. -/
theorem claim_C2_witness :
    searchFilter (some ("cafe")) ("My Cafe Shop")
      = specSubstringCI ("cafe") ("My Cafe Shop")
    ∧ specSubstringCI ("cafe") ("My Cafe Shop") = true :=
  ⟨claim_C2_amended ("cafe") ("My Cafe Shop") (by decide), by decide⟩

/-- Claim C2 counterexample: searching for "." returns a receipt whose
merchant name is "a", although "." is not a literal substring of "a" — the
metacharacter is interpreted as a regex wildcard, refuting the literal
substring reading. -/
theorem claim_C2_counterexample :
    (getReceipts [recA] queryDot 0 50).receipts = [recA]
    ∧ specSubstringCI (".") (recA.merchant_name) = false := by
  constructor
  · with_unfolding_all rfl
  · with_unfolding_all rfl

/-! ## Claim C4 -/

/-- Claim C4 (amended): the dashboard's category breakdown has at most 10
rows, each with a non-null (truthy) category id, ordered by descending
total, and each row carries the (total, count) statistics of one of the
per-category_id groups of the year-to-date window.  The top-10 cap is
applied BEFORE the null-key group is dropped, so the rows are the truthy-key
survivors of the top-10 groups; when every receipt in the window has a
truthy category id, the breakdown is exactly the top `min 10 (number of
groups)` groups. -/
theorem claim_C4_amended (db : List Receipt) (cats : List Category)
    (uid yearStart today : String) :
    (dashboardCategoryData db cats uid yearStart today).length ≤ 10
    ∧ List.Sorted catRowTotalDescRel (dashboardCategoryData db cats uid yearStart today)
    ∧ (∀ row ∈ dashboardCategoryData db cats uid yearStart today,
        optTruthy row.category_id = true
        ∧ CatGroup.mk row.category_id row.total row.count
          ∈ groupByCategory (db.filter (windowMatch uid yearStart today)))
    ∧ ((∀ r ∈ db.filter (windowMatch uid yearStart today),
          optTruthy r.category_id = true) →
        (dashboardCategoryData db cats uid yearStart today).length
          = min 10 (groupByCategory (db.filter (windowMatch uid yearStart today))).length) := by
  have hform : dashboardCategoryData db cats uid yearStart today
      = ((dashboardCategoryGroups db uid yearStart today).filter
          (fun c => optTruthy c.key)).map
        (dashboardRowOf (dashboardCatDocs db cats uid yearStart today)) :=
    filterMap_ite_eq_filter_map _ _ _
  have hsortG : List.Sorted catTotalDescRel (dashboardCategoryGroups db uid yearStart today) :=
    List.Pairwise.sublist (List.take_sublist _ _)
      (List.sorted_insertionSort catTotalDescRel
        (groupByCategory (db.filter (windowMatch uid yearStart today))))
  have hmemG : ∀ c ∈ dashboardCategoryGroups db uid yearStart today,
      c ∈ groupByCategory (db.filter (windowMatch uid yearStart today)) := by
    intro c hc
    have h1 : c ∈ (groupByCategory (db.filter (windowMatch uid yearStart
        today))).insertionSort catTotalDescRel :=
      (List.take_sublist _ _).subset hc
    exact (List.perm_insertionSort catTotalDescRel _).subset h1
  refine ⟨?_, ?_, ?_, ?_⟩
  · rw [hform, List.length_map]
    exact le_trans (List.length_filter_le _ _) (List.length_take_le _ _)
  · rw [hform]
    exact List.Pairwise.map _ (fun a b h => h) (hsortG.filter _)
  · intro row hrow
    rw [hform] at hrow
    rcases List.mem_map.mp hrow with ⟨c, hc, hrc⟩
    have hcf := List.mem_filter.mp hc
    constructor
    · rw [← hrc]
      exact hcf.2
    · rw [← hrc]
      exact hmemG c hcf.1
  · intro hall
    have htr : ∀ c ∈ dashboardCategoryGroups db uid yearStart today,
        optTruthy c.key = true := by
      intro c hc
      rcases List.mem_map.mp (hmemG c hc) with ⟨k, hk, hck⟩
      rcases List.mem_dedup.mp hk with hk2
      rcases List.mem_map.mp hk2 with ⟨r, hr, hrk⟩
      rw [← hck]
      show optTruthy k = true
      rw [← hrk]
      exact hall r hr
    rw [hform, List.length_map, List.filter_eq_self.mpr htr]
    show ((( groupByCategory (db.filter (windowMatch uid yearStart
      today))).insertionSort catTotalDescRel).take 10).length = _
    rw [List.length_take, List.length_insertionSort]

/-- Claim C4 witness: on a two-receipt window with truthy category ids the
breakdown length is exactly `min 10 2`. -/
theorem claim_C4_witness :
    (dashboardCategoryData db4w [] ("u") ("2025-01-01") ("2025-12-31")).length
      = min 10 (groupByCategory (db4w.filter
          (windowMatch ("u") ("2025-01-01") ("2025-12-31")))).length :=
  (claim_C4_amended db4w [] ("u") ("2025-01-01") ("2025-12-31")).2.2.2 (by decide)

/-- Claim C4 counterexample: with 11 distinct non-null categories plus a
null-category group holding the largest total, the pipeline's `$limit: 10`
keeps the null group among the top 10 and the comprehension then drops it,
leaving only 9 rows — NOT the 10 non-null groups with the greatest totals
that the claim promises. -/
theorem claim_C4_counterexample :
    ((catKeys (db4.filter (windowMatch ("u") ("2025-01-01") ("2025-12-31")))).filter
        optTruthy).length = 11
    ∧ (dashboardCategoryData db4 [] ("u") ("2025-01-01") ("2025-12-31")).length = 9 := by
  constructor
  · decide
  · with_unfolding_all rfl

/-! ## Claim C9 -/

theorem taxKeys_filter_pb (rs : List Receipt) :
    taxKeys (rs.filter pbSectionR) = (taxKeys rs).filter pbSectionK := by
  unfold taxKeys
  have h1 : (rs.filter pbSectionR).map (fun r => TaxKey.mk r.«section» r.category_id)
      = (rs.map (fun r => TaxKey.mk r.«section» r.category_id)).filter pbSectionK := by
    rw [List.filter_map]
    congr 1
  rw [h1, dedup_filter]

theorem taxGroupOf_filter_pb (rs : List Receipt) (k : TaxKey)
    (hk : pbSectionK k = true) :
    taxGroupOf (rs.filter pbSectionR) k = taxGroupOf rs k := by
  unfold taxGroupOf
  have hfil : (rs.filter pbSectionR).filter
        (fun r => TaxKey.mk r.«section» r.category_id == k)
      = rs.filter (fun r => TaxKey.mk r.«section» r.category_id == k) := by
    rw [List.filter_comm]
    apply List.filter_eq_self.mpr
    intro r hr
    have hk2 := (List.mem_filter.mp hr).2
    have hk3 : TaxKey.mk r.«section» r.category_id = k := beq_iff_eq.mp hk2
    show pbSectionR r = true
    have hsec : r.«section» = k.«section» := by rw [← hk3]
    unfold pbSectionR
    rw [hsec]
    exact hk
  rw [hfil]

theorem groupTax_filter_pb (rs : List Receipt) :
    groupTax (rs.filter pbSectionR) = (groupTax rs).filter (fun g => pbSectionK g.key) := by
  rw [groupTax_filter_key]
  unfold groupTax
  rw [taxKeys_filter_pb]
  apply List.map_congr_left
  intro k hk
  exact taxGroupOf_filter_pb rs k (List.mem_filter.mp hk).2

theorem filter_secIs_of_pb (s : String)
    (hs : s = ("personal" : String) ∨ s = ("business" : String)) (L : List TaxGroup) :
    (L.filter (fun g => pbSectionK g.key)).filter (secIs s) = L.filter (secIs s) := by
  rw [List.filter_filter]
  apply List.filter_congr
  intro g _
  by_cases hsec : secIs s g = true
  · have hkey : g.key.«section» = some s := by simpa [secIs] using hsec
    have hpb : pbSectionK g.key = true := by
      unfold pbSectionK
      rw [hkey]
      rcases hs with rfl | rfl
      · simp
      · simp
    simp [hsec, hpb]
  · have hf : secIs s g = false := by simpa using hsec
    simp [hf]

/-- Claim C9 (amended): provided the matched receipts form at most 200
(section, category_id) groups (the pipeline's `to_list(200)` bound), a
matched receipt whose section is neither "personal" nor "business"
contributes nothing to the tax summary's section lists (up to resolved
display names) and nothing to the per-section running totals: both equal
those computed from only the personal/business receipts.  (The resolved
display names can additionally be perturbed by such receipts through the
capped `to_list(200)` category fetch — see the counterexample.) -/
theorem claim_C9_amended (db : List Receipt) (cats : List Category) (uid : String)
    (df dt sq : Option String)
    (h200 : (groupTax (db.filter (reportQueryPred uid df dt sq))).length ≤ 200) :
    ((getTaxSummary (db.filter pbSectionR) cats uid df dt sq).personal.map taxRowData
        = (getTaxSummary db cats uid df dt sq).personal.map taxRowData)
    ∧ ((getTaxSummary (db.filter pbSectionR) cats uid df dt sq).business.map taxRowData
        = (getTaxSummary db cats uid df dt sq).business.map taxRowData)
    ∧ (getTaxSummary (db.filter pbSectionR) cats uid df dt sq).totalsPersonal
        = (getTaxSummary db cats uid df dt sq).totalsPersonal
    ∧ (getTaxSummary (db.filter pbSectionR) cats uid df dt sq).totalsBusiness
        = (getTaxSummary db cats uid df dt sq).totalsBusiness := by
  have hmatch : (db.filter pbSectionR).filter (reportQueryPred uid df dt sq)
      = (db.filter (reportQueryPred uid df dt sq)).filter pbSectionR :=
    List.filter_comm _ _ _
  have hgroups : groupTax ((db.filter pbSectionR).filter (reportQueryPred uid df dt sq))
      = (groupTax (db.filter (reportQueryPred uid df dt sq))).filter
          (fun g => pbSectionK g.key) := by
    rw [hmatch]
    exact groupTax_filter_pb _
  have hres_full : taxResults db uid df dt sq
      = (groupTax (db.filter (reportQueryPred uid df dt sq))).insertionSort taxGroupLe := by
    show ((groupTax (db.filter (reportQueryPred uid df dt sq))).insertionSort
        taxGroupLe).take 200 = _
    rw [List.take_of_length_le (by rw [List.length_insertionSort]; exact h200)]
  have hres_filt : taxResults (db.filter pbSectionR) uid df dt sq
      = ((groupTax (db.filter (reportQueryPred uid df dt sq))).insertionSort
          taxGroupLe).filter (fun g => pbSectionK g.key) := by
    show ((groupTax ((db.filter pbSectionR).filter
        (reportQueryPred uid df dt sq))).insertionSort taxGroupLe).take 200 = _
    rw [hgroups, List.take_of_length_le, filter_insertionSort]
    rw [List.length_insertionSort]
    exact le_trans (List.length_filter_le _ _) h200
  have hres_eq : ∀ s : String, s = ("personal" : String) ∨ s = ("business" : String) →
      (taxResults (db.filter pbSectionR) uid df dt sq).filter (secIs s)
        = (taxResults db uid df dt sq).filter (secIs s) := by
    intro s hs
    rw [hres_filt, hres_full]
    exact filter_secIs_of_pb s hs _
  have e1 : getTaxSummary (db.filter pbSectionR) cats uid df dt sq
      = TaxSummary.mk
        (emptyTaxSummary.personal
          ++ (((taxResults (db.filter pbSectionR) uid df dt sq).filter
            (secIs ("personal"))).map
            (taxRowOf (taxCatDocs cats (taxResults (db.filter pbSectionR) uid df dt sq)))))
        (emptyTaxSummary.business
          ++ (((taxResults (db.filter pbSectionR) uid df dt sq).filter
            (secIs ("business"))).map
            (taxRowOf (taxCatDocs cats (taxResults (db.filter pbSectionR) uid df dt sq)))))
        (Totals3.mk
          (emptyTaxSummary.totalsPersonal.total
            + ((((taxResults (db.filter pbSectionR) uid df dt sq).filter
              (secIs ("personal"))).map TaxGroup.total).sum))
          (emptyTaxSummary.totalsPersonal.tax
            + ((((taxResults (db.filter pbSectionR) uid df dt sq).filter
              (secIs ("personal"))).map TaxGroup.tax).sum))
          (emptyTaxSummary.totalsPersonal.count
            + ((((taxResults (db.filter pbSectionR) uid df dt sq).filter
              (secIs ("personal"))).map TaxGroup.count).sum)))
        (Totals3.mk
          (emptyTaxSummary.totalsBusiness.total
            + ((((taxResults (db.filter pbSectionR) uid df dt sq).filter
              (secIs ("business"))).map TaxGroup.total).sum))
          (emptyTaxSummary.totalsBusiness.tax
            + ((((taxResults (db.filter pbSectionR) uid df dt sq).filter
              (secIs ("business"))).map TaxGroup.tax).sum))
          (emptyTaxSummary.totalsBusiness.count
            + ((((taxResults (db.filter pbSectionR) uid df dt sq).filter
              (secIs ("business"))).map TaxGroup.count).sum))) :=
    foldl_taxStep_spec _ _ emptyTaxSummary
  have e2 : getTaxSummary db cats uid df dt sq
      = TaxSummary.mk
        (emptyTaxSummary.personal
          ++ (((taxResults db uid df dt sq).filter (secIs ("personal"))).map
            (taxRowOf (taxCatDocs cats (taxResults db uid df dt sq)))))
        (emptyTaxSummary.business
          ++ (((taxResults db uid df dt sq).filter (secIs ("business"))).map
            (taxRowOf (taxCatDocs cats (taxResults db uid df dt sq)))))
        (Totals3.mk
          (emptyTaxSummary.totalsPersonal.total
            + ((((taxResults db uid df dt sq).filter (secIs ("personal"))).map
              TaxGroup.total).sum))
          (emptyTaxSummary.totalsPersonal.tax
            + ((((taxResults db uid df dt sq).filter (secIs ("personal"))).map
              TaxGroup.tax).sum))
          (emptyTaxSummary.totalsPersonal.count
            + ((((taxResults db uid df dt sq).filter (secIs ("personal"))).map
              TaxGroup.count).sum)))
        (Totals3.mk
          (emptyTaxSummary.totalsBusiness.total
            + ((((taxResults db uid df dt sq).filter (secIs ("business"))).map
              TaxGroup.total).sum))
          (emptyTaxSummary.totalsBusiness.tax
            + ((((taxResults db uid df dt sq).filter (secIs ("business"))).map
              TaxGroup.tax).sum))
          (emptyTaxSummary.totalsBusiness.count
            + ((((taxResults db uid df dt sq).filter (secIs ("business"))).map
              TaxGroup.count).sum))) :=
    foldl_taxStep_spec _ _ emptyTaxSummary
  refine ⟨?_, ?_, ?_, ?_⟩
  · rw [e1, e2]
    simp only [List.map_append, List.map_map]
    rw [hres_eq ("personal") (Or.inl rfl)]
    exact congrArg _ (List.map_congr_left (fun g _ => rfl))
  · rw [e1, e2]
    simp only [List.map_append, List.map_map]
    rw [hres_eq ("business") (Or.inr rfl)]
    exact congrArg _ (List.map_congr_left (fun g _ => rfl))
  · rw [e1, e2]
    simp only []
    rw [hres_eq ("personal") (Or.inl rfl)]
  · rw [e1, e2]
    simp only []
    rw [hres_eq ("business") (Or.inr rfl)]

/-- Claim C9 witness: with one personal receipt and one "other"-section
receipt, the personal running totals are the same whether or not the
"other" receipt is present. -/
theorem claim_C9_witness :
    (getTaxSummary (db9w.filter pbSectionR) [] ("u") none none none).totalsPersonal
      = (getTaxSummary db9w [] ("u") none none none).totalsPersonal :=
  (claim_C9_amended db9w [] ("u") none none none (by decide)).2.2.1

/-- Claim C9 counterexample: a matched receipt with section "other" is not
silently excluded from the payload: its category id enters the capped
`to_list(200)` category fetch, evicts the document naming the personal row's
category, and turns that row's resolved name into "Unknown" — removing the
"other" receipt restores the name "Food".  The non-personal/business receipt
therefore DOES affect the returned summary, refuting the claim as stated. -/
theorem claim_C9_counterexample :
    ((getTaxSummary db9c cats9 ("u") none none none).personal.map
        TaxRow.category_name = [("Unknown")])
    ∧ ((getTaxSummary (db9c.filter pbSectionR) cats9 ("u") none none none).personal.map
        TaxRow.category_name = [("Food")]) := by
  constructor
  · with_unfolding_all rfl
  · with_unfolding_all rfl

end BillBrain
